import Mathlib

/-!
# Verification of the RAG / Action pipeline (task-manager assistant)

Shallow embedding, in Lean 4, of the pure cores of the pipeline services:

* `SearchService.reciprocalRankFusion` / `executeHybridSearch`
  (src/ai/rag/services/search.service.ts)
* `RetrievalService.compressContext` (src/ai/rag/services/retrieval.service.ts)
* `ConversationService.addToHistory` / `summarizeOldMessages`
  (src/ai/rag/services/conversation.service.ts)
* `IntentClassificationService.extractFilters`
  (src/ai/rag/services/intent-classification.service.ts)
* `DocumentTransformerService.transformTask` / `sanitizeText`
  (src/ai/indexing/indexing.service.ts, document-transformer part)
* `ActionExecutionService.execute*` (src/ai/rag/services/action-execution.service.ts)
* `RagService.generateCacheKey` / the response-cache branch of `processQuery`
  (src/ai/rag/rag.service.ts)
* `QdrantService.searchVectors` / `scrollPoints` filter handling
  (vector-store service)

External collaborators (LLM, embedding model, the wire-level vector store)
are modelled as parameters: every place the TypeScript code awaits such a
collaborator, the Lean function takes the reply of the collaborator as an input.
JavaScript numbers are modelled as exact rationals (`ℚ`), JS 32-bit bitwise
coercion as explicit wrap-around on `Int`.
-/

namespace TaskManager

/-! ## Retrieved documents (src/ai/rag/services/search.service.ts, RetrievedDoc) -/

/-- A retrieval record as produced by the searchers: `{ id, score, text,
entityType, entityId, metadata }`.  `metadata` is kept abstract here (a list of
key/value pairs) because the fusion and compression code never inspects it. -/
structure RetrievedDoc where
  id : String
  score : ℚ
  text : String
  entityType : String
  entityId : String
  deriving Repr, DecidableEq

/-! ## Reciprocal rank fusion (search.service.ts, `reciprocalRankFusion`)

The TypeScript code keeps a `Map` from doc id to `{doc, score}`, adds
`1/(k + rank + 1)` for each occurrence of an id, and finally sorts the map
values by descending fused score.  A JS `Map` preserves insertion order, so it
is modelled as an association list of `(doc, score)` pairs keyed by `doc.id`. -/

/-- `1 / (k + rank + 1)`, the RRF contribution of rank `rank` (0-based). -/
def rrfContribution (k rank : ℕ) : ℚ := 1 / ((k : ℚ) + (rank : ℚ) + 1)

/-- One `scoreMap` update for a doc at rank `r`: if an entry with the same id
exists its score is bumped, otherwise `(d, score)` is appended (JS `Map.set`
on a fresh key appends in iteration order). -/
def rrfBump (k : ℕ) (d : RetrievedDoc) (r : ℕ) :
    List (RetrievedDoc × ℚ) → List (RetrievedDoc × ℚ)
  | [] => [(d, rrfContribution k r)]
  | (e, s) :: rest =>
    if e.id = d.id then (e, s + rrfContribution k r) :: rest
    else (e, s) :: rrfBump k d r rest

/-- Process one ranked list (the inner `docs.forEach((doc, rank) => ...)`),
starting at rank `r0`. -/
def rrfBumpList (k : ℕ) (r0 : ℕ) (docs : List RetrievedDoc)
    (m : List (RetrievedDoc × ℚ)) : List (RetrievedDoc × ℚ) :=
  match docs with
  | [] => m
  | d :: ds => rrfBumpList k (r0 + 1) ds (rrfBump k d r0 m)

/-- The fully-populated score map over all input lists. -/
def rrfScoreMap (k : ℕ) (docLists : List (List RetrievedDoc)) :
    List (RetrievedDoc × ℚ) :=
  docLists.foldl (fun m docs => rrfBumpList k 0 docs m) []

/-- Stable insertion of an entry into a score-descending list; an element is
placed before the first strictly smaller score, matching the JS stable
`sort((a, b) => b.score - a.score)`. -/
def insertScoreDesc (x : RetrievedDoc × ℚ) :
    List (RetrievedDoc × ℚ) → List (RetrievedDoc × ℚ)
  | [] => [x]
  | y :: ys => if y.2 < x.2 then x :: y :: ys else y :: insertScoreDesc x ys

/-- Stable sort by descending fused score. -/
def sortScoreDesc : List (RetrievedDoc × ℚ) → List (RetrievedDoc × ℚ)
  | [] => []
  | x :: xs => insertScoreDesc x (sortScoreDesc xs)

/-- `reciprocalRankFusion(docLists, k = 60)`: build the score map, sort its
values by descending score, and emit each doc with its fused score
(`{ ...item.doc, score: item.score }`). -/
def reciprocalRankFusion (docLists : List (List RetrievedDoc)) (k : ℕ := 60) :
    List RetrievedDoc :=
  (sortScoreDesc (rrfScoreMap k docLists)).map
    (fun item => { item.1 with score := item.2 })

/-- `executeHybridSearch` after its external calls have returned: for each
reformulated query the pair of (vector results, BM25 results) is fused by a
per-query RRF; the concatenation of the per-query fused lists is fused again
by one global RRF over the single concatenated list. -/
def executeHybridSearch (perQueryResults : List (List RetrievedDoc × List RetrievedDoc)) :
    List RetrievedDoc :=
  let allDocs := (perQueryResults.map
    (fun p => reciprocalRankFusion [p.1, p.2])).flatten
  reciprocalRankFusion [allDocs]

/-! ## Context compression (retrieval.service.ts, `compressContext`) -/

/-- `compressContext(docs, maxTokens)`: include docs in order while the
cumulative text length stays within `4 * maxTokens`; stop at the first doc
that would exceed the budget. -/
def compressContextAux (maxTokens : ℕ) : ℕ → List RetrievedDoc → List RetrievedDoc
  | _, [] => []
  | totalLength, doc :: rest =>
    if totalLength + doc.text.length ≤ maxTokens * 4 then
      doc :: compressContextAux maxTokens (totalLength + doc.text.length) rest
    else []

def compressContext (docs : List RetrievedDoc) (maxTokens : ℕ) : List RetrievedDoc :=
  compressContextAux maxTokens 0 docs

/-! ## Conversation store (conversation.service.ts)

`addToHistory` pushes a `user`/`assistant` turn, invokes `summarizeOldMessages`
once the list reaches `SUMMARIZE_THRESHOLD = 8`, then truncates to
`MAX_MESSAGES = 10` from the head, and mirrors the result to the cache.  The
LLM call inside summarisation is external: its outcome (a summary string, or a
failure) is a parameter of the step function. -/

inductive Role where
  | user
  | assistant
  | summary
  deriving Repr, DecidableEq

structure ConversationTurn where
  role : Role
  content : String
  deriving Repr, DecidableEq

/-- Outcome of the summarisation LLM call (`ollamaService.generateCompletion`). -/
inductive LlmOutcome where
  | success (summaryText : String)
  | failure
  deriving Repr, DecidableEq

def MAX_MESSAGES : ℕ := 10
def SUMMARIZE_THRESHOLD : ℕ := 8

/-- The conversation text built from the messages to summarize: non-summary
turns rendered as `User: ...` / `Assistant: ...`, joined by newlines. -/
def conversationText (msgs : List ConversationTurn) : String :=
  String.intercalate "\n"
    ((msgs.filter (fun m => m.role ≠ Role.summary)).map
      (fun m => (if m.role = Role.user then "User: " else "Assistant: ") ++ m.content))

/-- `summarizeOldMessages`: split off the last `messagesToKeep = 3` turns; if
fewer than 3 older turns remain, or their rendered conversation text is blank,
return the history unchanged.  On LLM success replace the history with
`[summary] ++ recent`; on LLM failure fall back to truncating to
`MAX_MESSAGES` from the head. -/
def summarizeOldMessages (llm : LlmOutcome) (history : List ConversationTurn) :
    List ConversationTurn :=
  let messagesToKeep := 3
  let messagesToSummarize := history.take (history.length - messagesToKeep)
  if messagesToSummarize.length < 3 then history
  else if (conversationText messagesToSummarize).trim = "" then history
  else
    match llm with
    | LlmOutcome.success s =>
      { role := Role.summary, content := s.trim } ::
        history.drop (history.length - messagesToKeep)
    | LlmOutcome.failure =>
      history.drop (history.length - MAX_MESSAGES)

/-- `addToHistory(sessionId, role, content)` restricted to the list of one session:
push the turn, summarize at the threshold, and truncate to `MAX_MESSAGES` from
the head (`while (history.length > MAX_MESSAGES) history.shift()`). -/
def addToHistory (llm : LlmOutcome) (history : List ConversationTurn)
    (role : Role) (content : String) : List ConversationTurn :=
  let pushed := history ++ [{ role := role, content := content }]
  let afterSummarize :=
    if SUMMARIZE_THRESHOLD ≤ pushed.length then summarizeOldMessages llm pushed
    else pushed
  afterSummarize.drop (afterSummarize.length - MAX_MESSAGES)

/-- One external `Append(sessionId, role, content)` call; the signature of the
service restricts `role` to `user | assistant`, never `summary`. -/
structure AppendOp where
  isUser : Bool
  content : String
  llm : LlmOutcome
  deriving Repr, DecidableEq

def AppendOp.role (op : AppendOp) : Role :=
  if op.isUser then Role.user else Role.assistant

/-- Run a sequence of `Append` calls against an initially empty session. -/
def runAppends (ops : List AppendOp) : List ConversationTurn :=
  ops.foldl (fun h op => addToHistory op.llm h op.role op.content) []

/-- Number of `summary` turns in a history. -/
def summaryCount (h : List ConversationTurn) : ℕ :=
  (h.filter (fun t => t.role = Role.summary)).length

/-- The conversation-store invariant: bounded length, at most one summary
turn, and no summary turn after the head (so a summary, if present, is the
first element). -/
def HistoryInv (h : List ConversationTurn) : Prop :=
  h.length ≤ MAX_MESSAGES ∧ summaryCount h ≤ 1 ∧ summaryCount (h.drop 1) = 0

theorem summaryCount_drop_le (j : ℕ) (l : List ConversationTurn) :
    summaryCount (l.drop j) ≤ summaryCount l := by
  unfold summaryCount
  exact ((l.drop_sublist j).filter _).length_le

theorem summaryCount_eq_zero_iff {l : List ConversationTurn} :
    summaryCount l = 0 ↔ ∀ t ∈ l, t.role ≠ Role.summary := by
  unfold summaryCount
  rw [List.length_eq_zero, List.filter_eq_nil_iff]
  simp

theorem drop_one_drop (j : ℕ) (l : List ConversationTurn) :
    (l.drop j).drop 1 = (l.drop 1).drop j := by
  rw [List.drop_drop, List.drop_drop, Nat.add_comm]

/-- Dropping from the head preserves the summary clauses of the invariant. -/
theorem histInv_drop {l : List ConversationTurn} (j : ℕ)
    (h1 : summaryCount l ≤ 1) (h2 : summaryCount (l.drop 1) = 0) :
    summaryCount (l.drop j) ≤ 1 ∧ summaryCount ((l.drop j).drop 1) = 0 := by
  constructor
  · exact le_trans (summaryCount_drop_le j l) h1
  · rw [drop_one_drop]
    exact Nat.le_zero.mp (le_trans (summaryCount_drop_le j (l.drop 1)) (Nat.le_of_eq h2))

theorem summaryCount_append (l₁ l₂ : List ConversationTurn) :
    summaryCount (l₁ ++ l₂) = summaryCount l₁ + summaryCount l₂ := by
  unfold summaryCount
  rw [List.filter_append, List.length_append]

theorem summaryCount_singleton_ne {t : ConversationTurn}
    (h : t.role ≠ Role.summary) : summaryCount [t] = 0 := by
  unfold summaryCount
  simp [List.filter_eq_nil_iff, h]

theorem summarizeOldMessages_success_eq (s : String) (history : List ConversationTurn)
    (h1 : ¬ (history.take (history.length - 3)).length < 3)
    (h2 : ¬ (conversationText (history.take (history.length - 3))).trim = "") :
    summarizeOldMessages (LlmOutcome.success s) history =
      { role := Role.summary, content := s.trim } ::
        history.drop (history.length - 3) := by
  unfold summarizeOldMessages
  simp only [h1, if_false, h2]

theorem summarizeOldMessages_failure_eq (history : List ConversationTurn)
    (h1 : ¬ (history.take (history.length - 3)).length < 3)
    (h2 : ¬ (conversationText (history.take (history.length - 3))).trim = "") :
    summarizeOldMessages LlmOutcome.failure history =
      history.drop (history.length - MAX_MESSAGES) := by
  unfold summarizeOldMessages
  simp only [h1, if_false, h2]

/-- `addToHistory` preserves the invariant whenever the appended role is not
`summary` (the signature of the service only admits `user`/`assistant`). -/
theorem addToHistory_inv (llm : LlmOutcome) (h : List ConversationTurn)
    (role : Role) (content : String) (hrole : role ≠ Role.summary)
    (hinv : HistoryInv h) : HistoryInv (addToHistory llm h role content) := by
  obtain ⟨hlen, hcnt, htail⟩ := hinv
  unfold addToHistory
  set t : ConversationTurn := { role := role, content := content } with ht
  set pushed := h ++ [t] with hpushed
  have hplen : pushed.length = h.length + 1 := by
    rw [hpushed, List.length_append, List.length_singleton]
  have hpcnt : summaryCount pushed ≤ 1 := by
    rw [hpushed, summaryCount_append, summaryCount_singleton_ne hrole]
    simpa using hcnt
  have hptail : summaryCount (pushed.drop 1) = 0 := by
    rcases h with _ | ⟨hd, tl⟩
    · simp only [hpushed, List.nil_append, List.drop_succ_cons, List.drop_nil]
      rfl
    · rw [hpushed, List.cons_append, List.drop_succ_cons, List.drop_zero,
        summaryCount_append, summaryCount_singleton_ne hrole]
      simp only [List.drop_succ_cons, List.drop_zero] at htail
      rw [htail]
  by_cases hth : SUMMARIZE_THRESHOLD ≤ pushed.length
  · simp only [hth, if_true]
    -- summarisation branch
    have hmlen : (pushed.take (pushed.length - 3)).length = pushed.length - 3 := by
      rw [List.length_take]
      exact min_eq_left (Nat.sub_le _ _)
    have h8 : 8 ≤ pushed.length := hth
    have hnotlt : ¬ (pushed.take (pushed.length - 3)).length < 3 := by omega
    by_cases hblank : (conversationText (pushed.take (pushed.length - 3))).trim = ""
    · -- blank conversation text: history returned unchanged, then truncated
      have heq : summarizeOldMessages llm pushed = pushed := by
        unfold summarizeOldMessages
        simp only [hnotlt, if_false, hblank, if_true]
      rw [heq]
      refine ⟨?_, ?_, ?_⟩
      · rw [List.length_drop]; omega
      · exact (histInv_drop _ hpcnt hptail).1
      · exact (histInv_drop _ hpcnt hptail).2
    · have hdropcnt : summaryCount (pushed.drop (pushed.length - 3)) = 0 := by
        have h43 : pushed.length - 3 = (pushed.length - 4) + 1 := by omega
        rw [h43, Nat.add_comm, ← List.drop_drop]
        exact Nat.le_zero.mp
          (le_trans (summaryCount_drop_le _ _) (Nat.le_of_eq hptail))
      cases llm with
      | success s =>
        rw [summarizeOldMessages_success_eq s pushed hnotlt hblank]
        have hdlen : (pushed.drop (pushed.length - 3)).length = 3 := by
          rw [List.length_drop]; omega
        refine ⟨?_, ?_, ?_⟩
        · rw [List.length_drop]
          simp only [List.length_cons, hdlen]
          unfold MAX_MESSAGES
          omega
        · refine le_trans (summaryCount_drop_le _ _) ?_
          rw [show ({ role := Role.summary, content := s.trim } ::
              pushed.drop (pushed.length - 3)) =
              [{ role := Role.summary, content := s.trim }] ++
              pushed.drop (pushed.length - 3) from rfl,
            summaryCount_append, hdropcnt]
          have h1 : summaryCount [({ role := Role.summary, content := s.trim } :
              ConversationTurn)] = 1 := by rfl
          rw [h1]
        · rw [drop_one_drop]
          refine Nat.le_zero.mp (le_trans (summaryCount_drop_le _ _) ?_)
          simp only [List.drop_succ_cons, List.drop_zero]
          exact Nat.le_of_eq hdropcnt
      | failure =>
        rw [summarizeOldMessages_failure_eq pushed hnotlt hblank]
        refine ⟨?_, ?_, ?_⟩
        · rw [List.length_drop, List.length_drop]
          unfold MAX_MESSAGES
          omega
        · exact (histInv_drop _ (histInv_drop _ hpcnt hptail).1
            (histInv_drop _ hpcnt hptail).2).1
        · exact (histInv_drop _ (histInv_drop _ hpcnt hptail).1
            (histInv_drop _ hpcnt hptail).2).2
  · simp only [hth, if_false]
    refine ⟨?_, ?_, ?_⟩
    · rw [List.length_drop]
      have : pushed.length < SUMMARIZE_THRESHOLD := Nat.lt_of_not_le hth
      unfold SUMMARIZE_THRESHOLD at this
      unfold MAX_MESSAGES
      omega
    · exact (histInv_drop _ hpcnt hptail).1
    · exact (histInv_drop _ hpcnt hptail).2

theorem AppendOp.role_ne_summary (op : AppendOp) : op.role ≠ Role.summary := by
  unfold AppendOp.role
  by_cases hu : op.isUser <;> simp [hu]

theorem foldl_appends_inv (ops : List AppendOp) (h : List ConversationTurn)
    (hinv : HistoryInv h) :
    HistoryInv (ops.foldl (fun h op => addToHistory op.llm h op.role op.content) h) := by
  induction ops generalizing h with
  | nil => exact hinv
  | cons op ops ih =>
    rw [List.foldl_cons]
    exact ih _ (addToHistory_inv op.llm h op.role op.content
      (AppendOp.role_ne_summary op) hinv)

theorem runAppends_inv (ops : List AppendOp) : HistoryInv (runAppends ops) := by
  exact foldl_appends_inv ops []
    ⟨by simp [MAX_MESSAGES], by decide, by decide⟩

/-- Claim C2: for every session and every sequence of Append calls (with any
outcomes of the summarisation LLM), the stored history — which `Get` returns —
has at most 1 + MAX_MSG = 11 turns, contains at most one `summary` turn, and
any summary turn is the first element (no summary occurs after the head). -/
theorem conversation_history_bound (ops : List AppendOp) :
    (runAppends ops).length ≤ 1 + MAX_MESSAGES ∧
    summaryCount (runAppends ops) ≤ 1 ∧
    summaryCount ((runAppends ops).drop 1) = 0 := by
  obtain ⟨h1, h2, h3⟩ := runAppends_inv ops
  exact ⟨le_trans h1 (Nat.le_succ_of_le le_rfl), h2, h3⟩

/-! ## RRF bookkeeping lemmas -/

/-- The ids keyed by the score map, in insertion order. -/
def mapKeys (m : List (RetrievedDoc × ℚ)) : List String :=
  m.map (fun e => e.1.id)

/-- Total score the map assigns to id `x` (sum over all entries with that id;
a single entry once the keys are duplicate-free). -/
def entryScore (m : List (RetrievedDoc × ℚ)) (x : String) : ℚ :=
  ((m.filter (fun e => e.1.id = x)).map (fun e => e.2)).sum

/-- `Σ 1/(k + r + 1)` over the 0-based ranks `r` (counted from `r0`) at which
id `x` occurs in a ranked list. -/
def occScore (k : ℕ) (x : String) : ℕ → List RetrievedDoc → ℚ
  | _, [] => 0
  | r, d :: ds => (if d.id = x then rrfContribution k r else 0) + occScore k x (r + 1) ds

/-- The fused score of id `x` over all input lists. -/
def rrfTotalScore (k : ℕ) (x : String) (docLists : List (List RetrievedDoc)) : ℚ :=
  (docLists.map (occScore k x 0)).sum

theorem insertScoreDesc_perm (x : RetrievedDoc × ℚ) (l : List (RetrievedDoc × ℚ)) :
    List.Perm (insertScoreDesc x l) (x :: l) := by
  induction l with
  | nil => rfl
  | cons y ys ih =>
    unfold insertScoreDesc
    by_cases h : y.2 < x.2
    · simp only [h, if_true]
      exact List.Perm.refl _
    · simp only [h, if_false]
      exact (ih.cons y).trans (List.Perm.swap x y ys)

theorem sortScoreDesc_perm (l : List (RetrievedDoc × ℚ)) :
    List.Perm (sortScoreDesc l) l := by
  induction l with
  | nil => rfl
  | cons x xs ih =>
    unfold sortScoreDesc
    exact (insertScoreDesc_perm x (sortScoreDesc xs)).trans (ih.cons x)

/-- Descending-score order between score-map entries. -/
def scoreGE (a b : RetrievedDoc × ℚ) : Prop := b.2 ≤ a.2

theorem insertScoreDesc_pairwise (x : RetrievedDoc × ℚ) (l : List (RetrievedDoc × ℚ))
    (h : l.Pairwise scoreGE) : (insertScoreDesc x l).Pairwise scoreGE := by
  induction l with
  | nil => simp [insertScoreDesc, List.pairwise_cons]
  | cons y ys ih =>
    rw [List.pairwise_cons] at h
    unfold insertScoreDesc
    by_cases hlt : y.2 < x.2
    · simp only [hlt, if_true]
      rw [List.pairwise_cons]
      refine ⟨?_, List.pairwise_cons.mpr h⟩
      intro z hz
      rcases List.mem_cons.mp hz with hz | hz
      · rw [hz]; exact le_of_lt hlt
      · exact le_trans (h.1 z hz) (le_of_lt hlt)
    · simp only [hlt, if_false]
      rw [List.pairwise_cons]
      refine ⟨?_, ih h.2⟩
      intro z hz
      have hz' := (insertScoreDesc_perm x ys).mem_iff.mp hz
      rcases List.mem_cons.mp hz' with hz' | hz'
      · rw [hz']; exact le_of_not_lt hlt
      · exact h.1 z hz'

theorem sortScoreDesc_pairwise (l : List (RetrievedDoc × ℚ)) :
    (sortScoreDesc l).Pairwise scoreGE := by
  induction l with
  | nil => simp [sortScoreDesc]
  | cons x xs ih => exact insertScoreDesc_pairwise x (sortScoreDesc xs) ih

theorem entryScore_nil (x : String) : entryScore [] x = 0 := rfl

theorem entryScore_cons (a : RetrievedDoc) (b : ℚ) (m : List (RetrievedDoc × ℚ))
    (x : String) :
    entryScore ((a, b) :: m) x = (if a.id = x then b else 0) + entryScore m x := by
  unfold entryScore
  by_cases h : a.id = x <;> simp [List.filter_cons, h]

theorem rrfBump_nil (k : ℕ) (d : RetrievedDoc) (r : ℕ) :
    rrfBump k d r [] = [(d, rrfContribution k r)] := rfl

theorem rrfBump_cons (k : ℕ) (d : RetrievedDoc) (r : ℕ) (a : RetrievedDoc) (b : ℚ)
    (rest : List (RetrievedDoc × ℚ)) :
    rrfBump k d r ((a, b) :: rest) =
      if a.id = d.id then (a, b + rrfContribution k r) :: rest
      else (a, b) :: rrfBump k d r rest := rfl

theorem entryScore_bump (k : ℕ) (d : RetrievedDoc) (r : ℕ)
    (m : List (RetrievedDoc × ℚ)) (x : String) :
    entryScore (rrfBump k d r m) x =
      entryScore m x + (if d.id = x then rrfContribution k r else 0) := by
  induction m with
  | nil =>
    rw [rrfBump_nil, entryScore_cons, entryScore_nil]
    ring
  | cons e rest ih =>
    obtain ⟨a, b⟩ := e
    by_cases hid : a.id = d.id
    · rw [rrfBump_cons]
      simp only [hid, if_true]
      rw [entryScore_cons, entryScore_cons]
      by_cases hx : a.id = x
      · have hdx : d.id = x := hid ▸ hx
        simp only [hx, if_true, hdx]
        ring
      · have hdx : ¬ d.id = x := fun hc => hx (hid ▸ hc)
        simp only [hx, if_false, hdx]
        ring
    · rw [rrfBump_cons]
      simp only [hid, if_false]
      rw [entryScore_cons, entryScore_cons, ih]
      ring

theorem occScore_nil (k : ℕ) (x : String) (r : ℕ) : occScore k x r [] = 0 := rfl

theorem occScore_cons (k : ℕ) (x : String) (r : ℕ) (d : RetrievedDoc)
    (ds : List RetrievedDoc) :
    occScore k x r (d :: ds) =
      (if d.id = x then rrfContribution k r else 0) + occScore k x (r + 1) ds := rfl

theorem entryScore_bumpList (k : ℕ) (docs : List RetrievedDoc) (r0 : ℕ)
    (m : List (RetrievedDoc × ℚ)) (x : String) :
    entryScore (rrfBumpList k r0 docs m) x = entryScore m x + occScore k x r0 docs := by
  induction docs generalizing r0 m with
  | nil => rw [occScore_nil, show rrfBumpList k r0 [] m = m from rfl]; ring
  | cons d ds ih =>
    rw [show rrfBumpList k r0 (d :: ds) m = rrfBumpList k (r0 + 1) ds (rrfBump k d r0 m)
        from rfl, ih, entryScore_bump, occScore_cons]
    ring

theorem entryScore_foldl (k : ℕ) (docLists : List (List RetrievedDoc))
    (m : List (RetrievedDoc × ℚ)) (x : String) :
    entryScore (docLists.foldl (fun m docs => rrfBumpList k 0 docs m) m) x =
      entryScore m x + (docLists.map (occScore k x 0)).sum := by
  induction docLists generalizing m with
  | nil => simp
  | cons l ls ih =>
    rw [List.foldl_cons, ih, entryScore_bumpList, List.map_cons, List.sum_cons]
    ring

theorem entryScore_scoreMap (k : ℕ) (docLists : List (List RetrievedDoc)) (x : String) :
    entryScore (rrfScoreMap k docLists) x = rrfTotalScore k x docLists := by
  unfold rrfScoreMap rrfTotalScore
  rw [entryScore_foldl, entryScore_nil]
  ring

theorem mapKeys_bump (k : ℕ) (d : RetrievedDoc) (r : ℕ) (m : List (RetrievedDoc × ℚ)) :
    mapKeys (rrfBump k d r m) =
      if d.id ∈ mapKeys m then mapKeys m else mapKeys m ++ [d.id] := by
  induction m with
  | nil => simp [mapKeys, rrfBump]
  | cons e rest ih =>
    obtain ⟨a, b⟩ := e
    by_cases hid : a.id = d.id
    · rw [rrfBump_cons]
      simp only [hid, if_true]
      have hmem : d.id ∈ mapKeys ((a, b) :: rest) := by
        simp [mapKeys, hid.symm]
      simp only [hmem, if_true]
      simp [mapKeys]
    · rw [rrfBump_cons]
      simp only [hid, if_false]
      have hcons : mapKeys ((a, b) :: rrfBump k d r rest) =
          a.id :: mapKeys (rrfBump k d r rest) := rfl
      have hcons2 : mapKeys ((a, b) :: rest) = a.id :: mapKeys rest := rfl
      rw [hcons, ih, hcons2]
      by_cases hm : d.id ∈ mapKeys rest
      · have : d.id ∈ a.id :: mapKeys rest := List.mem_cons_of_mem _ hm
        simp only [hm, if_true, this, if_true]
      · have : ¬ d.id ∈ a.id :: mapKeys rest := by
          intro hc
          rcases List.mem_cons.mp hc with hc | hc
          · exact hid hc.symm
          · exact hm hc
        simp only [hm, if_false, this, if_false, List.cons_append]

theorem nodup_mapKeys_bump (k : ℕ) (d : RetrievedDoc) (r : ℕ)
    (m : List (RetrievedDoc × ℚ)) (h : (mapKeys m).Nodup) :
    (mapKeys (rrfBump k d r m)).Nodup := by
  rw [mapKeys_bump]
  by_cases hm : d.id ∈ mapKeys m
  · simpa [hm]
  · simp only [hm, if_false]
    simpa using List.Nodup.append h (List.nodup_singleton _)
      (by simpa [List.disjoint_singleton] using hm)

theorem mem_mapKeys_bump (k : ℕ) (d : RetrievedDoc) (r : ℕ)
    (m : List (RetrievedDoc × ℚ)) (x : String) :
    x ∈ mapKeys (rrfBump k d r m) ↔ x ∈ mapKeys m ∨ x = d.id := by
  rw [mapKeys_bump]
  by_cases hm : d.id ∈ mapKeys m
  · simp only [hm, if_true]
    constructor
    · exact Or.inl
    · rintro (h | h)
      · exact h
      · exact h ▸ hm
  · simp [hm]

theorem nodup_mapKeys_bumpList (k : ℕ) (docs : List RetrievedDoc) (r0 : ℕ)
    (m : List (RetrievedDoc × ℚ)) (h : (mapKeys m).Nodup) :
    (mapKeys (rrfBumpList k r0 docs m)).Nodup := by
  induction docs generalizing r0 m with
  | nil => exact h
  | cons d ds ih => exact ih _ _ (nodup_mapKeys_bump k d r0 m h)

theorem mem_mapKeys_bumpList (k : ℕ) (docs : List RetrievedDoc) (r0 : ℕ)
    (m : List (RetrievedDoc × ℚ)) (x : String) :
    x ∈ mapKeys (rrfBumpList k r0 docs m) ↔
      x ∈ mapKeys m ∨ x ∈ docs.map (fun d => d.id) := by
  induction docs generalizing r0 m with
  | nil => simp [rrfBumpList]
  | cons d ds ih =>
    rw [show rrfBumpList k r0 (d :: ds) m = rrfBumpList k (r0 + 1) ds (rrfBump k d r0 m)
        from rfl, ih, mem_mapKeys_bump]
    simp only [List.map_cons, List.mem_cons]
    tauto

theorem nodup_mapKeys_scoreMap (k : ℕ) (docLists : List (List RetrievedDoc)) :
    (mapKeys (rrfScoreMap k docLists)).Nodup := by
  unfold rrfScoreMap
  have main : ∀ (ls : List (List RetrievedDoc)) (m : List (RetrievedDoc × ℚ)),
      (mapKeys m).Nodup →
      (mapKeys (ls.foldl (fun m docs => rrfBumpList k 0 docs m) m)).Nodup := by
    intro ls
    induction ls with
    | nil => intro m h; exact h
    | cons l ls ih =>
      intro m h
      rw [List.foldl_cons]
      exact ih _ (nodup_mapKeys_bumpList k l 0 m h)
  exact main docLists [] (by simp [mapKeys])

theorem mem_mapKeys_scoreMap (k : ℕ) (docLists : List (List RetrievedDoc)) (x : String) :
    x ∈ mapKeys (rrfScoreMap k docLists) ↔
      ∃ l ∈ docLists, x ∈ l.map (fun d => d.id) := by
  unfold rrfScoreMap
  have main : ∀ (ls : List (List RetrievedDoc)) (m : List (RetrievedDoc × ℚ)),
      x ∈ mapKeys (ls.foldl (fun m docs => rrfBumpList k 0 docs m) m) ↔
        x ∈ mapKeys m ∨ ∃ l ∈ ls, x ∈ l.map (fun d => d.id) := by
    intro ls
    induction ls with
    | nil => intro m; simp
    | cons l ls ih =>
      intro m
      rw [List.foldl_cons, ih, mem_mapKeys_bumpList]
      simp only [List.mem_cons]
      constructor
      · rintro ((h | h) | ⟨l', hl', hx⟩)
        · exact Or.inl h
        · exact Or.inr ⟨l, Or.inl rfl, h⟩
        · exact Or.inr ⟨l', Or.inr hl', hx⟩
      · rintro (h | ⟨l', hl' | hl', hx⟩)
        · exact Or.inl (Or.inl h)
        · exact Or.inl (Or.inr (hl' ▸ hx))
        · exact Or.inr ⟨l', hl', hx⟩
  rw [main docLists []]
  simp [mapKeys]

theorem entryScore_eq_zero_of_not_mem (m : List (RetrievedDoc × ℚ)) (x : String)
    (h : ¬ x ∈ mapKeys m) : entryScore m x = 0 := by
  induction m with
  | nil => rfl
  | cons e rest ih =>
    obtain ⟨a, b⟩ := e
    have ha : ¬ a.id = x := by
      intro hc
      exact h (by simp [mapKeys, hc])
    have hr : ¬ x ∈ mapKeys rest := by
      intro hc
      exact h (List.mem_cons_of_mem _ hc)
    rw [entryScore_cons, ih hr]
    simp [ha]

/-- In a score map with duplicate-free keys, the stored score of an entry is
exactly the total score the map assigns to the id of that entry. -/
theorem snd_eq_entryScore (m : List (RetrievedDoc × ℚ)) (h : (mapKeys m).Nodup)
    (d : RetrievedDoc) (s : ℚ) (hm : (d, s) ∈ m) : s = entryScore m d.id := by
  induction m with
  | nil => cases hm
  | cons e rest ih =>
    obtain ⟨a, b⟩ := e
    have hnd : (mapKeys rest).Nodup := (List.nodup_cons.mp h).2
    have hhead : ¬ a.id ∈ mapKeys rest := (List.nodup_cons.mp h).1
    rcases List.mem_cons.mp hm with heq | hmem
    · injection heq with h1 h2
      subst h1
      subst h2
      rw [entryScore_cons, entryScore_eq_zero_of_not_mem rest _ hhead]
      simp
    · have hdid : d.id ∈ mapKeys rest := by
        simp only [mapKeys, List.mem_map]
        exact ⟨(d, s), hmem, rfl⟩
      have hne : ¬ a.id = d.id := fun hc => hhead (hc ▸ hdid)
      rw [entryScore_cons, ih hnd hmem]
      simp [hne]

/-! ## Properties of the fused output -/

theorem rrf_ids_eq (docLists : List (List RetrievedDoc)) (k : ℕ) :
    (reciprocalRankFusion docLists k).map (fun d => d.id) =
      mapKeys (sortScoreDesc (rrfScoreMap k docLists)) := by
  unfold reciprocalRankFusion mapKeys
  rw [List.map_map]
  rfl

/-- The fused list never repeats a document id. -/
theorem rrf_ids_nodup (docLists : List (List RetrievedDoc)) (k : ℕ) :
    ((reciprocalRankFusion docLists k).map (fun d => d.id)).Nodup := by
  rw [rrf_ids_eq]
  have hperm : List.Perm (mapKeys (sortScoreDesc (rrfScoreMap k docLists)))
      (mapKeys (rrfScoreMap k docLists)) := by
    unfold mapKeys
    exact (sortScoreDesc_perm (rrfScoreMap k docLists)).map (fun e => e.1.id)
  exact hperm.nodup_iff.mpr (nodup_mapKeys_scoreMap k docLists)

/-- Every fused entry carries the total RRF score of its id. -/
theorem rrf_mem_score (docLists : List (List RetrievedDoc)) (k : ℕ)
    (e : RetrievedDoc) (he : e ∈ reciprocalRankFusion docLists k) :
    e.score = rrfTotalScore k e.id docLists := by
  unfold reciprocalRankFusion at he
  rcases List.mem_map.mp he with ⟨⟨d, s⟩, hds, heq⟩
  have hmem : (d, s) ∈ rrfScoreMap k docLists :=
    (sortScoreDesc_perm (rrfScoreMap k docLists)).mem_iff.mp hds
  have hs : s = entryScore (rrfScoreMap k docLists) d.id :=
    snd_eq_entryScore _ (nodup_mapKeys_scoreMap k docLists) d s hmem
  have hid : e.id = d.id := by rw [← heq]
  have hscore : e.score = s := by rw [← heq]
  rw [hscore, hid, hs, entryScore_scoreMap]

/-- The fused list is sorted by descending fused score. -/
theorem rrf_sorted (docLists : List (List RetrievedDoc)) (k : ℕ) :
    (reciprocalRankFusion docLists k).Pairwise (fun a b => b.score ≤ a.score) := by
  unfold reciprocalRankFusion
  refine List.Pairwise.map _ ?_ (sortScoreDesc_pairwise (rrfScoreMap k docLists))
  intro a b hab
  exact hab

/-- An id occurring in some input list occurs in the fused output. -/
theorem rrf_mem_of_mem (docLists : List (List RetrievedDoc)) (k : ℕ) (x : String)
    (hx : ∃ l ∈ docLists, x ∈ l.map (fun d => d.id)) :
    x ∈ (reciprocalRankFusion docLists k).map (fun d => d.id) := by
  rw [rrf_ids_eq]
  have hperm : List.Perm (mapKeys (sortScoreDesc (rrfScoreMap k docLists)))
      (mapKeys (rrfScoreMap k docLists)) := by
    unfold mapKeys
    exact (sortScoreDesc_perm (rrfScoreMap k docLists)).map (fun e => e.1.id)
  exact hperm.mem_iff.mpr ((mem_mapKeys_scoreMap k docLists x).mpr hx)

/-! ## occScore evaluation lemmas -/

theorem occScore_nonneg (k : ℕ) (x : String) (r0 : ℕ) (l : List RetrievedDoc) :
    0 ≤ occScore k x r0 l := by
  induction l generalizing r0 with
  | nil => rw [occScore_nil]
  | cons d ds ih =>
    rw [occScore_cons]
    have hc : (0 : ℚ) ≤ rrfContribution k r0 := by
      unfold rrfContribution
      positivity
    have : (0 : ℚ) ≤ if d.id = x then rrfContribution k r0 else 0 := by
      by_cases h : d.id = x <;> simp [h, hc]
    exact add_nonneg this (ih (r0 + 1))

theorem occScore_eq_zero_of_not_mem (k : ℕ) (x : String) (r0 : ℕ)
    (l : List RetrievedDoc) (h : ¬ x ∈ l.map (fun d => d.id)) :
    occScore k x r0 l = 0 := by
  induction l generalizing r0 with
  | nil => rfl
  | cons d ds ih =>
    have hd : ¬ d.id = x := by
      intro hc
      exact h (by simp [hc])
    have hds : ¬ x ∈ ds.map (fun d => d.id) := by
      intro hc
      exact h (by simp at hc ⊢; tauto)
    rw [occScore_cons, ih _ hds]
    simp [hd]

/-- In a list with duplicate-free ids, the occurrence score of the id found at
rank `r` is exactly `1/(k + r0 + r + 1)`. -/
theorem occScore_eq_single (k : ℕ) (r0 : ℕ) (l : List RetrievedDoc)
    (hnd : (l.map (fun d => d.id)).Nodup) (r : ℕ) (hr : r < l.length) :
    occScore k (l.get ⟨r, hr⟩).id r0 l = rrfContribution k (r0 + r) := by
  induction l generalizing r0 r with
  | nil => cases hr
  | cons d ds ih =>
    rw [List.map_cons, List.nodup_cons] at hnd
    cases r with
    | zero =>
      have hget : ((d :: ds).get ⟨0, hr⟩) = d := rfl
      rw [hget, occScore_cons]
      rw [occScore_eq_zero_of_not_mem k d.id (r0 + 1) ds hnd.1]
      simp
    | succ n =>
      have hn : n < ds.length := Nat.lt_of_succ_lt_succ hr
      have hget : ((d :: ds).get ⟨n + 1, hr⟩) = ds.get ⟨n, hn⟩ := rfl
      rw [hget, occScore_cons]
      have hne : ¬ d.id = (ds.get ⟨n, hn⟩).id := by
        intro hc
        refine hnd.1 ?_
        rw [hc]
        exact List.mem_map.mpr ⟨ds.get ⟨n, hn⟩, ds.get_mem _ _, rfl⟩
      rw [ih (r0 + 1) hnd.2 n hn]
      simp only [hne, if_false, zero_add]
      congr 1
      omega

theorem rrfContribution_pos (k r : ℕ) : 0 < rrfContribution k r := by
  unfold rrfContribution
  positivity

theorem rrfContribution_lt (k : ℕ) {r r' : ℕ} (h : r < r') :
    rrfContribution k r' < rrfContribution k r := by
  unfold rrfContribution
  apply one_div_lt_one_div_of_lt
  · positivity
  · have : (r : ℚ) < (r' : ℚ) := by exact_mod_cast h
    linarith

theorem rrfContribution_le (k : ℕ) {r r' : ℕ} (h : r ≤ r') :
    rrfContribution k r' ≤ rrfContribution k r := by
  rcases Nat.lt_or_ge r r' with hlt | hge
  · exact le_of_lt (rrfContribution_lt k hlt)
  · have : r' = r := le_antisymm hge h
    rw [this]

theorem rrfTotalScore_pair (k : ℕ) (x : String) (L1 L2 : List RetrievedDoc) :
    rrfTotalScore k x [L1, L2] = occScore k x 0 L1 + occScore k x 0 L2 := by
  unfold rrfTotalScore
  simp

/-- Claim C10: `reciprocalRankFusion` returns each document id at most once,
assigns each returned doc the sum of `1/(60 + rank + 1)` over every
occurrence of its id across the input lists, returns the docs sorted by
descending fused score — and consequently `executeHybridSearch`, whose final
step is a global RRF, never returns two documents with the same id. -/
theorem rrf_fusion_unique_sum_sorted :
    (∀ docLists : List (List RetrievedDoc),
      ((reciprocalRankFusion docLists 60).map (fun d => d.id)).Nodup ∧
      (∀ e ∈ reciprocalRankFusion docLists 60,
        e.score = rrfTotalScore 60 e.id docLists) ∧
      (reciprocalRankFusion docLists 60).Pairwise (fun a b => b.score ≤ a.score)) ∧
    ∀ perQueryResults : List (List RetrievedDoc × List RetrievedDoc),
      ((executeHybridSearch perQueryResults).map (fun d => d.id)).Nodup := by
  constructor
  · intro docLists
    exact ⟨rrf_ids_nodup docLists 60,
      fun e he => rrf_mem_score docLists 60 e he,
      rrf_sorted docLists 60⟩
  · intro perQueryResults
    unfold executeHybridSearch
    exact rrf_ids_nodup _ 60

/-- Document used by the C10 witness. -/
def rrfWitnessDoc : RetrievedDoc :=
  { id := "k1", score := 0, text := "Task: demo",
    entityType := "task", entityId := "K1" }

/-- The C10 witness document with its fused score. -/
def rrfWitnessFused : RetrievedDoc :=
  { rrfWitnessDoc with score := rrfContribution 60 0 }

/-- Concrete instantiation of the membership hypothesis of claim C10: fusing the
single list `[rrfWitnessDoc]` yields one entry whose score is the total RRF
score of its id. -/
theorem rrf_fusion_unique_sum_sorted_witness :
    rrfWitnessFused ∈ reciprocalRankFusion [[rrfWitnessDoc]] 60 ∧
    rrfWitnessFused.score = rrfTotalScore 60 rrfWitnessFused.id [[rrfWitnessDoc]] := by
  have hmem : rrfWitnessFused ∈ reciprocalRankFusion [[rrfWitnessDoc]] 60 := by
    have hfuse : reciprocalRankFusion [[rrfWitnessDoc]] 60 = [rrfWitnessFused] := rfl
    rw [hfuse]
    exact List.mem_singleton.mpr rfl
  exact ⟨hmem, (rrf_fusion_unique_sum_sorted.1 _).2.1 _ hmem⟩

/-- Claim C6: if a document d occurs at rank `r1` in `L1` and rank `r2` in
`L2` with `r1 < r2`, then RRF over `[L1, L2]` with `k = 60` places d strictly
before any document e that occurs only in `L1`, at a rank `≥ r1 + 1`, and
nowhere in `L2`. -/
theorem rrf_monotonicity (L1 L2 : List RetrievedDoc) (d e : RetrievedDoc)
    (r1 r2 re : ℕ)
    (hnd1 : (L1.map (fun x => x.id)).Nodup)
    (hnd2 : (L2.map (fun x => x.id)).Nodup)
    (h1 : r1 < L1.length) (h1id : (L1.get ⟨r1, h1⟩).id = d.id)
    (h2 : r2 < L2.length) (h2id : (L2.get ⟨r2, h2⟩).id = d.id)
    (_h12 : r1 < r2)
    (he : re < L1.length) (heid : (L1.get ⟨re, he⟩).id = e.id)
    (hre : r1 + 1 ≤ re)
    (he2 : ¬ e.id ∈ L2.map (fun x => x.id))
    (hde : d.id ≠ e.id) :
    ∃ i j, ∃ (hi : i < (reciprocalRankFusion [L1, L2] 60).length)
      (hj : j < (reciprocalRankFusion [L1, L2] 60).length),
      i < j ∧ ((reciprocalRankFusion [L1, L2] 60).get ⟨i, hi⟩).id = d.id ∧
        ((reciprocalRankFusion [L1, L2] 60).get ⟨j, hj⟩).id = e.id := by
  set out := reciprocalRankFusion [L1, L2] 60 with hout
  -- total scores of the two ids
  have e1 : occScore 60 d.id 0 L1 = rrfContribution 60 r1 := by
    have h := occScore_eq_single 60 0 L1 hnd1 r1 h1
    rw [Nat.zero_add, h1id] at h
    exact h
  have e2 : occScore 60 d.id 0 L2 = rrfContribution 60 r2 := by
    have h := occScore_eq_single 60 0 L2 hnd2 r2 h2
    rw [Nat.zero_add, h2id] at h
    exact h
  have e3 : occScore 60 e.id 0 L1 = rrfContribution 60 re := by
    have h := occScore_eq_single 60 0 L1 hnd1 re he
    rw [Nat.zero_add, heid] at h
    exact h
  have hds : rrfTotalScore 60 d.id [L1, L2] =
      rrfContribution 60 r1 + rrfContribution 60 r2 := by
    rw [rrfTotalScore_pair, e1, e2]
  have hes : rrfTotalScore 60 e.id [L1, L2] = rrfContribution 60 re := by
    rw [rrfTotalScore_pair, e3, occScore_eq_zero_of_not_mem 60 e.id 0 L2 he2, add_zero]
  have hstrict : rrfTotalScore 60 e.id [L1, L2] < rrfTotalScore 60 d.id [L1, L2] := by
    rw [hds, hes]
    have hlt : rrfContribution 60 re < rrfContribution 60 r1 :=
      lt_of_le_of_lt (rrfContribution_le 60 hre) (rrfContribution_lt 60 (Nat.lt_succ_self r1))
    have hpos := rrfContribution_pos 60 r2
    linarith
  -- both ids occur in the fused output
  have hdid : d.id ∈ out.map (fun x => x.id) := by
    refine rrf_mem_of_mem [L1, L2] 60 d.id ⟨L1, by simp, ?_⟩
    exact List.mem_map.mpr ⟨L1.get ⟨r1, h1⟩, L1.get_mem _ _, h1id⟩
  have heidm : e.id ∈ out.map (fun x => x.id) := by
    refine rrf_mem_of_mem [L1, L2] 60 e.id ⟨L1, by simp, ?_⟩
    exact List.mem_map.mpr ⟨L1.get ⟨re, he⟩, L1.get_mem _ _, heid⟩
  rcases List.mem_map.mp hdid with ⟨a, ha, haid⟩
  rcases List.mem_map.mp heidm with ⟨b, hb, hbid⟩
  rcases List.mem_iff_get.mp ha with ⟨i, hia⟩
  rcases List.mem_iff_get.mp hb with ⟨j, hjb⟩
  refine ⟨i, j, i.isLt, j.isLt, ?_, by rw [hia]; exact haid, by rw [hjb]; exact hbid⟩
  have hines : (out.get i).id = d.id := by rw [hia]; exact haid
  have hjnes : (out.get j).id = e.id := by rw [hjb]; exact hbid
  have hiscore : (out.get i).score = rrfTotalScore 60 d.id [L1, L2] := by
    rw [← hines]
    exact rrf_mem_score [L1, L2] 60 _ (out.get_mem _ _)
  have hjscore : (out.get j).score = rrfTotalScore 60 e.id [L1, L2] := by
    rw [← hjnes]
    exact rrf_mem_score [L1, L2] 60 _ (out.get_mem _ _)
  rcases Nat.lt_trichotomy (i : ℕ) (j : ℕ) with hlt | heq | hgt
  · exact hlt
  · exfalso
    have : out.get i = out.get j := by
      congr 1
      exact Fin.ext heq
    rw [this, hjnes] at hines
    exact hde hines.symm
  · exfalso
    have hpair := List.pairwise_iff_get.mp (rrf_sorted [L1, L2] 60) j i
      (by exact hgt)
    rw [hiscore, hjscore] at hpair
    exact absurd hpair (not_le_of_lt hstrict)

/-- Documents used by the C6 witness. -/
def rrfMonoDocD : RetrievedDoc :=
  { id := "d", score := 0, text := "Task: alpha", entityType := "task", entityId := "D" }

def rrfMonoDocE : RetrievedDoc :=
  { id := "e", score := 0, text := "Task: beta", entityType := "task", entityId := "E" }

def rrfMonoDocZ : RetrievedDoc :=
  { id := "z", score := 0, text := "Task: gamma", entityType := "task", entityId := "Z" }

/-- Concrete instantiation of claim C6: with `L1 = [d, e]` and `L2 = [z, d]`,
document d (ranks 0 and 1) is fused strictly above e (only rank 1 of L1). -/
theorem rrf_monotonicity_witness :
    ∃ i j, ∃ (hi : i < (reciprocalRankFusion [[rrfMonoDocD, rrfMonoDocE],
        [rrfMonoDocZ, rrfMonoDocD]] 60).length)
      (hj : j < (reciprocalRankFusion [[rrfMonoDocD, rrfMonoDocE],
        [rrfMonoDocZ, rrfMonoDocD]] 60).length),
      i < j ∧
        ((reciprocalRankFusion [[rrfMonoDocD, rrfMonoDocE],
          [rrfMonoDocZ, rrfMonoDocD]] 60).get ⟨i, hi⟩).id = rrfMonoDocD.id ∧
        ((reciprocalRankFusion [[rrfMonoDocD, rrfMonoDocE],
          [rrfMonoDocZ, rrfMonoDocD]] 60).get ⟨j, hj⟩).id = rrfMonoDocE.id := by
  exact rrf_monotonicity [rrfMonoDocD, rrfMonoDocE] [rrfMonoDocZ, rrfMonoDocD]
    rrfMonoDocD rrfMonoDocE 0 1 1
    (by decide) (by decide)
    (by decide) rfl
    (by decide) rfl
    (by decide)
    (by decide) rfl
    (by decide)
    (by decide)
    (by decide)

/-! ## Compression theorems (claim C8) -/

/-- Total character length of the `text` fields of the docs. -/
def textLengthSum (docs : List RetrievedDoc) : ℕ :=
  (docs.map (fun d => d.text.length)).sum

theorem textLengthSum_nil : textLengthSum [] = 0 := rfl

theorem textLengthSum_cons (d : RetrievedDoc) (ds : List RetrievedDoc) :
    textLengthSum (d :: ds) = d.text.length + textLengthSum ds := by
  unfold textLengthSum
  rw [List.map_cons, List.sum_cons]

theorem compressContextAux_cons (m acc : ℕ) (d : RetrievedDoc) (ds : List RetrievedDoc) :
    compressContextAux m acc (d :: ds) =
      if acc + d.text.length ≤ m * 4 then
        d :: compressContextAux m (acc + d.text.length) ds
      else [] := rfl

/-- Greedy-prefix characterisation of `compressContextAux`. -/
theorem compressContextAux_spec (m : ℕ) (docs : List RetrievedDoc) (acc : ℕ) :
    ∃ n, compressContextAux m acc docs = docs.take n ∧
      (n = 0 ∨ acc + textLengthSum (docs.take n) ≤ m * 4) ∧
      (n = docs.length ∨ ∃ hn : n < docs.length,
        m * 4 < acc + textLengthSum (docs.take n) + (docs.get ⟨n, hn⟩).text.length) := by
  induction docs generalizing acc with
  | nil =>
    exact ⟨0, rfl, Or.inl rfl, Or.inl rfl⟩
  | cons d ds ih =>
    by_cases hc : acc + d.text.length ≤ m * 4
    · obtain ⟨n', heq, hle, hstop⟩ := ih (acc + d.text.length)
      refine ⟨n' + 1, ?_, ?_, ?_⟩
      · rw [compressContextAux_cons]
        simp only [hc, if_true]
        rw [heq, List.take_succ_cons]
      · refine Or.inr ?_
        rw [List.take_succ_cons, textLengthSum_cons]
        rcases hle with h0 | hle
        · subst h0
          simpa [textLengthSum_nil] using hc
        · omega
      · rcases hstop with hend | ⟨hn', hbound⟩
        · exact Or.inl (by simp [hend])
        · refine Or.inr ⟨by simpa using Nat.succ_lt_succ hn', ?_⟩
          rw [List.take_succ_cons, textLengthSum_cons]
          have hget : ((d :: ds).get ⟨n' + 1, by simpa using Nat.succ_lt_succ hn'⟩) =
              ds.get ⟨n', hn'⟩ := rfl
          rw [hget]
          omega
    · refine ⟨0, ?_, Or.inl rfl, ?_⟩
      · rw [compressContextAux_cons]
        simp only [hc, if_false]
        rfl
      · refine Or.inr ⟨by simp, ?_⟩
        have hget : ((d :: ds).get ⟨0, by simp⟩) = d := rfl
        rw [hget, List.take_zero, textLengthSum_nil]
        omega

/-- Counterexample to claim C8 as stated: a document whose `text` is empty
contributes length 0, so `compressContext(docs, 0)` keeps it even though the
budget is 0; the result is not the empty list. -/
theorem compressContext_zero_counterexample :
    compressContext
      [{ id := "s", score := 0, text := "", entityType := "system_info",
         entityId := "S" }] 0 =
      [{ id := "s", score := 0, text := "", entityType := "system_info",
         entityId := "S" }] ∧
    compressContext
      [{ id := "s", score := 0, text := "", entityType := "system_info",
         entityId := "S" }] 0 ≠ [] := by
  constructor
  · rfl
  · intro h
    exact absurd h (by decide)

/-- Claim C8 (amended): `compressContext(docs, 0)` is empty whenever every doc
has nonempty text (docs of empty text are retained at zero budget); in
general the result is the greedy prefix of `docs` — docs are included in
input order while the cumulative text length stays within `4·maxTokens`, and
inclusion stops at the first doc that would exceed the budget. -/
theorem compressContext_spec :
    (∀ docs : List RetrievedDoc, (∀ d ∈ docs, d.text.length ≠ 0) →
      compressContext docs 0 = []) ∧
    ∀ (docs : List RetrievedDoc) (maxTokens : ℕ),
      ∃ n, compressContext docs maxTokens = docs.take n ∧
        textLengthSum (docs.take n) ≤ maxTokens * 4 ∧
        (n = docs.length ∨ ∃ hn : n < docs.length,
          maxTokens * 4 < textLengthSum (docs.take n) +
            (docs.get ⟨n, hn⟩).text.length) := by
  constructor
  · intro docs hne
    cases docs with
    | nil => rfl
    | cons d ds =>
      have hd : d.text.length ≠ 0 := hne d (List.mem_cons_self d ds)
      unfold compressContext
      rw [compressContextAux_cons]
      have : ¬ 0 + d.text.length ≤ 0 * 4 := by omega
      simp only [this, if_false]
  · intro docs maxTokens
    obtain ⟨n, heq, hle, hstop⟩ := compressContextAux_spec maxTokens docs 0
    refine ⟨n, heq, ?_, ?_⟩
    · rcases hle with h0 | hle
      · subst h0
        rw [List.take_zero, textLengthSum_nil]
        exact Nat.zero_le _
      · omega
    · rcases hstop with hend | ⟨hn, hbound⟩
      · exact Or.inl hend
      · exact Or.inr ⟨hn, by omega⟩

/-- Concrete instantiation of the hypotheses of claim C8: with nonempty texts the
zero-budget compression is empty, and the greedy prefix at budget 1 keeps
exactly the first document of a two-document list. -/
theorem compressContext_spec_witness :
    compressContext
      [{ id := "a", score := 0, text := "abc", entityType := "task",
         entityId := "A" }] 0 = [] := by
  refine compressContext_spec.1 _ ?_
  intro d hd
  rw [List.mem_singleton.mp hd]
  decide

/-! ## Strings: JS `includes` / prefix scanning helpers -/

/-- Character-list prefix test (`needle` starts `hay`). -/
def listStartsWith : List Char → List Char → Bool
  | [], _ => true
  | _ :: _, [] => false
  | a :: as, b :: bs => a = b && listStartsWith as bs

/-- Character-list substring test. -/
def listOccursIn (needle : List Char) : List Char → Bool
  | [] => needle.isEmpty
  | c :: rest => listStartsWith needle (c :: rest) || listOccursIn needle rest

/-- JS `hay.includes(needle)`. -/
def strContains (hay needle : String) : Bool :=
  listOccursIn needle.toList hay.toList

/-- Character-wise lowercasing (JS `toLowerCase`, ASCII range — every string
the pipeline scans for is ASCII). -/
def strToLower (s : String) : String :=
  String.mk (s.toList.map Char.toLower)

/-! ## Filter values and the filter object built by `extractFilters`

`extractFilters` returns a plain JS object; the keys it can set are fixed, so
the object is modelled as a structure of optional fields.  The `entity_type`
key can hold either a string or (in the reading of the search service) an array,
hence the sum type. -/

inductive JsonVal where
  | str (s : String)
  | bool (b : Bool)
  | num (q : ℚ)
  | null
  deriving Repr, DecidableEq

/-- Value shapes the search service distinguishes under the `entity_type`
key (`Array.isArray(filters.entity_type)`). -/
inductive StrOrList where
  | str (s : String)
  | list (l : List String)
  deriving Repr, DecidableEq

/-- The filter object.  `metadataType` models `filters.metadata = \x7b type: … \x7d`
(set only for requirements/statistics/help); `entity_types` is the *plural*
key set by `extractFilters` for multi-entity queries; `entity_type` is the
*singular* key the searchers read. -/
structure Filters where
  metadataType : Option String := none
  entity_type : Option StrOrList := none
  entity_types : Option (List String) := none
  is_overdue : Option Bool := none
  is_urgent : Option Bool := none
  task_status : Option String := none
  deriving Repr, DecidableEq

/-- `IntentClassificationService.extractFilters(query, history, type, intent)`.
The LLM-backed `entityExtractionService.extractEntityTypes` call is external;
its outcome (a list of entity types, or a thrown error) is the
`entityTypesResult` parameter.  The history argument only feeds that LLM call
and is therefore absorbed into the parameter. -/
def extractFilters (query : String) (type intent : Option String)
    (entityTypesResult : Except Unit (List String)) : Filters :=
  if type = some "requirements" then { metadataType := some "system_info" }
  else if type = some "statistics" then { metadataType := some "statistics" }
  else if type = some "help" then { metadataType := some "system_info" }
  else
    let base : Filters :=
      match entityTypesResult with
      | Except.ok entityTypes =>
        if 1 < entityTypes.length then { entity_types := some entityTypes }
        else if entityTypes.length = 1 then
          { entity_type := entityTypes.head?.map StrOrList.str }
        else {}
      | Except.error _ =>
        if intent = some "task_management" then { entity_type := some (StrOrList.str "task") }
        else if intent = some "team_info" then { entity_type := some (StrOrList.str "team") }
        else if intent = some "project_info" then { entity_type := some (StrOrList.str "project") }
        else if intent = some "user_info" then { entity_type := some (StrOrList.str "user") }
        else {}
    let lower := strToLower query
    let f1 := if strContains lower "overdue" then { base with is_overdue := some true } else base
    let f2 := if strContains lower "urgent" then { f1 with is_urgent := some true } else f1
    let f3 := if strContains lower "to do" then { f2 with task_status := some "to do" } else f2
    let f4 := if strContains lower "in progress" then
        { f3 with task_status := some "in progress" } else f3
    if strContains lower "done" then { f4 with task_status := some "done" } else f4

/-! ## Qdrant filters and the vector store (search.service.ts + QdrantService) -/

/-- One `(key, match: \x7b value \x7d)` condition. -/
structure QCond where
  key : String
  value : JsonVal
  deriving Repr, DecidableEq

/-- A Qdrant filter: `must` (AND) plus `should` (OR) condition lists. -/
structure QFilter where
  must : List QCond := []
  should : List QCond := []
  deriving Repr, DecidableEq

/-- JS truthiness of the optional string values carried in `Filters`
(`undefined`, `null` and `""` are falsy). -/
def strTruthy : Option String → Bool
  | some s => !s.isEmpty
  | none => false

/-- The Qdrant filter built by `SearchService.vectorSearch` from the filter
object, including the `hasFilter` flag (`none` models passing `undefined`).
The array branch uses `should`; the `must` list is deleted when empty. -/
def vectorSearchQdrantFilter (filters : Filters) : Option QFilter :=
  let entityPart : List QCond × List QCond × Bool :=
    match filters.entity_type with
    | some (StrOrList.list ts) =>
      ([], ts.map (fun t => { key := "entity_type", value := JsonVal.str t }), true)
    | some (StrOrList.str t) =>
      ([{ key := "entity_type", value := JsonVal.str t }], [], true)
    | none => ([], [], false)
  let must1 := entityPart.1
  let should1 := entityPart.2.1
  let has1 := entityPart.2.2
  let must2 := if filters.is_overdue = some true then
      must1 ++ [{ key := "metadata.is_overdue", value := JsonVal.bool true }] else must1
  let has2 := has1 || filters.is_overdue = some true
  let must3 := if filters.is_urgent = some true then
      must2 ++ [{ key := "metadata.is_urgent", value := JsonVal.bool true }] else must2
  let has3 := has2 || filters.is_urgent = some true
  let must4 := match filters.task_status with
    | some s => if !s.isEmpty then
        must3 ++ [{ key := "metadata.task_status", value := JsonVal.str s }] else must3
    | none => must3
  let has4 := has3 || strTruthy filters.task_status
  if has4 then some { must := must4, should := should1 } else none

/-- The Qdrant filter built by `SearchService.bm25Search` (it only consults
`entity_type`). -/
def bm25QdrantFilter (filters : Filters) : Option QFilter :=
  match filters.entity_type with
  | some (StrOrList.list ts) =>
    some { must := [],
           should := ts.map (fun t => { key := "entity_type", value := JsonVal.str t }) }
  | some (StrOrList.str t) =>
    some { must := [{ key := "entity_type", value := JsonVal.str t }], should := [] }
  | none => none

/-- The payload of a stored point, as written by `IndexingService`. -/
structure Payload where
  entity_type : String
  entity_id : String
  text : String
  metadata : List (String × JsonVal)
  deriving Repr, DecidableEq

/-- A point in the vector store paired with its similarity score against the
current query (the embedding and ANN scoring are external collaborators; the
store list is assumed ordered by descending similarity). -/
structure StoredPoint where
  id : String
  score : ℚ
  payload : Payload
  deriving Repr, DecidableEq

/-- Remainder of `key` after a `metadata.` prefix, if it has one. -/
def metadataSubkey (key : String) : Option String :=
  if listStartsWith "metadata.".toList key.toList then
    some (String.mk (key.toList.drop 9))
  else none

/-- Payload field addressed by a Qdrant condition key. -/
def payloadLookup (p : Payload) (key : String) : Option JsonVal :=
  if key = "entity_type" then some (JsonVal.str p.entity_type)
  else if key = "entity_id" then some (JsonVal.str p.entity_id)
  else
    match metadataSubkey key with
    | some sub => p.metadata.lookup sub
    | none => none

/-- One condition holds of a payload iff the addressed field equals the
condition's value. -/
def condMatches (p : Payload) (c : QCond) : Bool :=
  payloadLookup p c.key = some c.value

/-- Modelled from the spec: the wire-level Qdrant match semantics (§4.2
filter language — `must` is a conjunction, `should` requires at least one
match when present).  The Qdrant client library is an external collaborator
and not part of src/. -/
def filterMatches (f : QFilter) (p : Payload) : Bool :=
  f.must.all (condMatches p) && (f.should.isEmpty || f.should.any (condMatches p))

/-- `QdrantService.searchVectors`: the filter is attached to the request only
when it has a nonempty `must` list; a should-only filter is silently dropped. -/
def searchVectors (store : List StoredPoint) (limit : ℕ)
    (filter? : Option QFilter) : List StoredPoint :=
  match filter? with
  | some f =>
    if !f.must.isEmpty then (store.filter (fun pt => filterMatches f pt.payload)).take limit
    else store.take limit
  | none => store.take limit

/-- `QdrantService.scrollPoints`: the filter is attached when it has a
nonempty `must` list or a nonempty `should` list. -/
def scrollPoints (store : List StoredPoint) (filter? : Option QFilter)
    (limit : ℕ) : List StoredPoint :=
  match filter? with
  | some f =>
    if !f.must.isEmpty || !f.should.isEmpty then
      (store.filter (fun pt => filterMatches f pt.payload)).take limit
    else store.take limit
  | none => store.take limit

/-- `SearchService.vectorSearch` after the embedding call: build the Qdrant
filter, search with limit 10, convert hits to `RetrievedDoc`s. -/
def vectorSearch (store : List StoredPoint) (filters : Filters) : List RetrievedDoc :=
  (searchVectors store 10 (vectorSearchQdrantFilter filters)).map (fun pt =>
    { id := pt.id, score := pt.score, text := pt.payload.text,
      entityType := pt.payload.entity_type, entityId := pt.payload.entity_id })

/-! ## Document transformer (document-transformer service, `transformTask`)

Dates are epoch milliseconds (`Int`).  Locale date rendering
(`toLocaleDateString`) and ISO rendering (`toISOString`) are deterministic
external formatting functions and are passed in as parameters. -/

/-- Task status enum (`task.entity.ts`). -/
inductive TaskStatus where
  | todo
  | in_progress
  | done
  deriving Repr, DecidableEq

/-- The wire string of a status value. -/
def TaskStatus.toStr : TaskStatus → String
  | TaskStatus.todo => "todo"
  | TaskStatus.in_progress => "in_progress"
  | TaskStatus.done => "done"

/-- `formatTaskStatus`: human-readable status. -/
def formatTaskStatus : TaskStatus → String
  | TaskStatus.todo => "To Do"
  | TaskStatus.in_progress => "In Progress"
  | TaskStatus.done => "Done"

/-- `formatRole`: capitalise the first letter. -/
def formatRole (role : String) : String :=
  match role.toList with
  | [] => ""
  | c :: cs => String.mk (c.toUpper :: cs)

structure ProjectRef where
  name : String
  deriving Repr, DecidableEq

structure TeamRef where
  name : String
  projectId : Option String
  project : Option ProjectRef
  deriving Repr, DecidableEq

/-- The eagerly-loaded assignee relation of a task. -/
structure AssigneeRef where
  name : String
  email : String
  role : String
  teamId : Option String
  team : Option TeamRef
  deriving Repr, DecidableEq

/-- A task snapshot with its loaded relations
(`assignee`, `assignee.team`, `assignee.team.project`). -/
structure TaskSnapshot where
  id : String
  title : String
  description : Option String
  status : TaskStatus
  assignedTo : Option String
  assignee : Option AssigneeRef
  deadline : Option Int
  createdAt : Int
  updatedAt : Int
  deriving Repr, DecidableEq

structure TransformedDocument where
  text : String
  metadata : List (String × JsonVal)
  deriving Repr, DecidableEq

def msPerDay : Int := 1000 * 60 * 60 * 24

/-- `getDaysUntilDeadline`: `Math.ceil((deadline - now) / 86400000)`
(exact ceiling division on epoch milliseconds). -/
def getDaysUntilDeadline (now deadline : Int) : Int :=
  -((-(deadline - now)).ediv msPerDay)

/-- Formatting environment: `now` plus the two deterministic date renderers. -/
structure TransformEnv where
  now : Int
  fmtDate : Int → String
  isoDate : Int → String

/-- JS `x || null` for optional strings (empty string collapses to null). -/
def strOrNull : Option String → JsonVal
  | some s => if s.isEmpty then JsonVal.null else JsonVal.str s
  | none => JsonVal.null

/-- `DocumentTransformerService.transformTask`: the searchable text and the
flat metadata map of one task document. -/
def transformTask (env : TransformEnv) (t : TaskSnapshot) : TransformedDocument :=
  let descParts : List String :=
    match t.description with
    | some d => if d.isEmpty then [] else ["Details: " ++ d]
    | none => []
  let assigneeParts : List String :=
    match t.assignee with
    | some a =>
      [t.title ++ " is assigned to " ++ a.name ++ " (" ++ a.email ++ ")",
       a.name ++ " is a " ++ formatRole a.role] ++
      (match a.team with
       | some tm =>
         [a.name ++ " works in " ++ tm.name ++ " team"] ++
         (match tm.project with
          | some p => ["Part of " ++ p.name ++ " project"]
          | none => [])
       | none => [])
    | none => [t.title ++ " is unassigned"]
  let deadlineParts : List String :=
    match t.deadline with
    | some dl =>
      let days := getDaysUntilDeadline env.now dl
      ["Deadline: " ++ env.fmtDate dl] ++
      (if days < 0 then ["⚠ Overdue by " ++ toString (-days) ++ " days"]
       else if days = 0 then ["⚠ Due today"]
       else if days ≤ 3 then ["⚠ Due in " ++ toString days ++ " days (urgent)"]
       else ["Due in " ++ toString days ++ " days"])
    | none => ["No deadline set"]
  let textParts : List String :=
    ["Task: " ++ t.title] ++ descParts ++
    ["This task is " ++ formatTaskStatus t.status] ++
    assigneeParts ++ deadlineParts ++
    ["Created: " ++ env.fmtDate t.createdAt,
     "Last updated: " ++ env.fmtDate t.updatedAt]
  let daysUntilDeadline : Option Int := t.deadline.map (getDaysUntilDeadline env.now)
  let metadata : List (String × JsonVal) :=
    [("entity_type", JsonVal.str "task"),
     ("entity_id", JsonVal.str t.id),
     ("task_title", JsonVal.str t.title),
     ("task_description", strOrNull t.description),
     ("task_status", JsonVal.str t.status.toStr),
     ("assigned_to", match t.assignedTo with
        | some s => JsonVal.str s
        | none => JsonVal.null),
     ("assignee_name", strOrNull (t.assignee.map (fun a => a.name))),
     ("assignee_email", strOrNull (t.assignee.map (fun a => a.email))),
     ("team_id", strOrNull (t.assignee.bind (fun a => a.teamId))),
     ("team_name", strOrNull ((t.assignee.bind (fun a => a.team)).map (fun tm => tm.name))),
     ("project_id", strOrNull ((t.assignee.bind (fun a => a.team)).bind (fun tm => tm.projectId))),
     ("project_name", strOrNull (((t.assignee.bind (fun a => a.team)).bind
        (fun tm => tm.project)).map (fun p => p.name))),
     ("deadline", match t.deadline with
        | some dl => JsonVal.str (env.isoDate dl)
        | none => JsonVal.null),
     ("is_overdue", JsonVal.bool (match daysUntilDeadline with
        | some d => d < 0
        | none => false)),
     ("is_urgent", JsonVal.bool (match daysUntilDeadline with
        | some d => 0 ≤ d && d ≤ 3
        | none => false)),
     ("days_until_deadline", match daysUntilDeadline with
        | some d => JsonVal.num (d : ℚ)
        | none => JsonVal.null),
     ("created_at", JsonVal.str (env.isoDate t.createdAt)),
     ("updated_at", JsonVal.str (env.isoDate t.updatedAt))]
  { text := String.intercalate "\n" textParts, metadata := metadata }

/-- The vector-store payload written by `IndexingService.indexTask` for a
task (relationships omitted: no claim consults them). -/
def taskPayload (env : TransformEnv) (t : TaskSnapshot) : Payload :=
  { entity_type := "task", entity_id := t.id,
    text := (transformTask env t).text,
    metadata := (transformTask env t).metadata }

/-! ## Claims about filters, the transformer, and the store -/

/-- Boolean read off a metadata map (non-boolean or missing values are falsy). -/
def metaBool (m : List (String × JsonVal)) (key : String) : Bool :=
  match m.lookup key with
  | some (JsonVal.bool b) => b
  | _ => false

/-- A project document sitting in the vector store (used to exhibit that the
multi-entity filter does not restrict results). -/
def projectPoint : StoredPoint :=
  { id := "42", score := 1,
    payload := { entity_type := "project", entity_id := "P1",
                 text := "Project: Infra", metadata := [("project_name", JsonVal.str "Infra")] } }

/-- Claim C1 (code bug): for a classification with more than one entity,
`extractFilters` stores the list under the *plural* key `entity_types`, while
`vectorSearch`/`bm25Search` read the *singular* key `entity_type`; the built
Qdrant filters are therefore empty (`undefined`), and both the vector search
and the BM25 candidate scroll return documents of arbitrary entity type —
here a `project` document for a task/user query. -/
theorem multi_entity_filter_dropped :
    (extractFilters "show all tasks and users" (some "list") (some "task_info")
      (Except.ok ["task", "user"])).entity_types = some ["task", "user"] ∧
    (extractFilters "show all tasks and users" (some "list") (some "task_info")
      (Except.ok ["task", "user"])).entity_type = none ∧
    vectorSearchQdrantFilter (extractFilters "show all tasks and users" (some "list")
      (some "task_info") (Except.ok ["task", "user"])) = none ∧
    bm25QdrantFilter (extractFilters "show all tasks and users" (some "list")
      (some "task_info") (Except.ok ["task", "user"])) = none ∧
    vectorSearch [projectPoint] (extractFilters "show all tasks and users" (some "list")
      (some "task_info") (Except.ok ["task", "user"])) =
      [{ id := "42", score := 1, text := "Project: Infra",
         entityType := "project", entityId := "P1" }] ∧
    scrollPoints [projectPoint] (bm25QdrantFilter (extractFilters "show all tasks and users"
      (some "list") (some "task_info") (Except.ok ["task", "user"]))) 60 = [projectPoint] ∧
    (["task", "user"].contains "project") = false := by
  refine ⟨by decide, by decide, by decide, by decide, ?_, by decide, by decide⟩
  decide

/-- Claim C7 (code bug): a query containing the status phrase `in progress`
makes `extractFilters` set `metadata.task_status` to the human phrase
`"in progress"` (with a space), while `transformTask` stores the canonical
enum value (`todo`, `in_progress` or `done`); the resulting must-condition
matches no task document the transformer produces. -/
theorem task_status_filter_mismatch :
    (extractFilters "show tasks in progress" (some "list") (some "task_info")
      (Except.ok ["task"])).task_status = some "in progress" ∧
    vectorSearchQdrantFilter (extractFilters "show tasks in progress" (some "list")
      (some "task_info") (Except.ok ["task"])) =
      some { must := [{ key := "entity_type", value := JsonVal.str "task" },
                      { key := "metadata.task_status", value := JsonVal.str "in progress" }],
             should := [] } ∧
    (∀ s : TaskStatus, (["todo", "in_progress", "done"].contains s.toStr) = true) ∧
    (∀ (env : TransformEnv) (t : TaskSnapshot),
      (transformTask env t).metadata.lookup "task_status" =
        some (JsonVal.str t.status.toStr)) ∧
    (∀ (env : TransformEnv) (t : TaskSnapshot),
      condMatches (taskPayload env t)
        { key := "metadata.task_status", value := JsonVal.str "in progress" } = false) ∧
    (∀ (env : TransformEnv) (t : TaskSnapshot),
      filterMatches { must := [{ key := "entity_type", value := JsonVal.str "task" },
                               { key := "metadata.task_status",
                                 value := JsonVal.str "in progress" }],
                      should := [] } (taskPayload env t) = false) := by
  refine ⟨by decide, by decide, by intro s; cases s <;> decide, ?_, ?_, ?_⟩
  · intro env t
    simp [transformTask, List.lookup]
  · intro env t
    simp [condMatches, payloadLookup, taskPayload, metadataSubkey, transformTask,
      List.lookup, listStartsWith]
    cases t.status <;> simp [TaskStatus.toStr]
  · intro env t
    simp [filterMatches, condMatches, payloadLookup, taskPayload, metadataSubkey,
      transformTask, List.lookup, listStartsWith]
    cases t.status <;> simp [TaskStatus.toStr]

/-- Claim C9: in every task document, `is_overdue` is exactly
`days_until_deadline < 0` and `is_urgent` exactly `0 ≤ days ≤ 3` when a
deadline exists (both false otherwise); the two flags are never both true, so
the must-filter built from a query containing both `overdue` and `urgent`
matches no task document the transformer produces. -/
theorem task_overdue_urgent_exclusive :
    (∀ (env : TransformEnv) (t : TaskSnapshot),
      metaBool (transformTask env t).metadata "is_overdue" =
        (match t.deadline with
         | some dl => decide (getDaysUntilDeadline env.now dl < 0)
         | none => false) ∧
      metaBool (transformTask env t).metadata "is_urgent" =
        (match t.deadline with
         | some dl => decide (0 ≤ getDaysUntilDeadline env.now dl) &&
             decide (getDaysUntilDeadline env.now dl ≤ 3)
         | none => false) ∧
      (metaBool (transformTask env t).metadata "is_overdue" &&
        metaBool (transformTask env t).metadata "is_urgent") = false) ∧
    vectorSearchQdrantFilter (extractFilters "show overdue and urgent tasks" (some "list")
      (some "task_info") (Except.ok ["task"])) =
      some { must := [{ key := "entity_type", value := JsonVal.str "task" },
                      { key := "metadata.is_overdue", value := JsonVal.bool true },
                      { key := "metadata.is_urgent", value := JsonVal.bool true }],
             should := [] } ∧
    ∀ (env : TransformEnv) (t : TaskSnapshot),
      filterMatches { must := [{ key := "entity_type", value := JsonVal.str "task" },
                               { key := "metadata.is_overdue", value := JsonVal.bool true },
                               { key := "metadata.is_urgent", value := JsonVal.bool true }],
                      should := [] } (taskPayload env t) = false := by
  refine ⟨?_, by decide, ?_⟩
  · intro env t
    refine ⟨?_, ?_, ?_⟩
    · cases ht : t.deadline <;>
        simp [transformTask, metaBool, List.lookup, ht]
    · cases ht : t.deadline <;>
        simp [transformTask, metaBool, List.lookup, ht]
    · cases ht : t.deadline with
      | none => simp [transformTask, metaBool, List.lookup, ht]
      | some dl =>
        simp [transformTask, metaBool, List.lookup, ht]
        omega
  · intro env t
    cases ht : t.deadline with
    | none =>
      simp [filterMatches, condMatches, payloadLookup, taskPayload, metadataSubkey,
        transformTask, List.lookup, listStartsWith, ht]
    | some dl =>
      simp [filterMatches, condMatches, payloadLookup, taskPayload, metadataSubkey,
        transformTask, List.lookup, listStartsWith, ht]
      omega

/-! ## Action executor (action-execution.service.ts)

CRUD dispatches to the entity services and vector-index writes are modelled
as an effect trace; each service call the TypeScript code awaits appends one
effect.  Entity resolution (`EntityResolutionService`) and the id returned by
a create call are external reads supplied through `ExecEnv`.  Function-call
arguments are the parsed JSON object: an association list of string values. -/

/-- One externally visible write: a CRUD dispatch or a vector-index write. -/
inductive Effect where
  | createTask (title description : String) (status : TaskStatus)
      (assignedTo : Option String) (deadline : Option String)
  | updateTask (id : String) (patch : List (String × String))
  | removeTask (id : String)
  | createUser (name email password : String) (role teamId : Option String)
  | updateUser (id : String) (patch : List (String × String))
  | removeUser (id : String)
  | createTeam (name projectId ownerId : String)
  | updateTeam (id : String) (patch : List (String × String))
  | removeTeam (id : String)
  | createProject (name description : String)
  | updateProject (id : String) (patch : List (String × String))
  | removeProject (id : String)
  | indexTask (id : String)
  | indexUser (id : String)
  | indexTeam (id : String)
  | indexProject (id : String)
  | reindexEntity (kind id : String)
  | deleteFromIndex (kind id : String)
  deriving Repr, DecidableEq

/-- External collaborators of the executor: the entity resolver and the ids
minted by the create endpoints. -/
structure ExecEnv where
  resolveUser : String → Option String
  resolveTeam : String → Option String
  resolveProject : String → Option String
  resolveTask : String → Option String
  newTaskId : String := "T-new"
  newUserId : String := "U-new"
  newTeamId : String := "G-new"
  newProjectId : String := "P-new"

/-- A parsed function call: `\x7b name, arguments \x7d`. -/
structure FunctionCall where
  name : String
  arguments : List (String × String)
  deriving Repr, DecidableEq

/-- JS property read on the arguments object. -/
def argGet (args : List (String × String)) (k : String) : Option String :=
  args.lookup k

/-- JS truthiness of an argument (`undefined` and `""` are falsy). -/
def argTruthy (args : List (String × String)) (k : String) : Bool :=
  match argGet args k with
  | some s => !s.isEmpty
  | none => false

theorem length_dropWhile_le_chars (p : Char → Bool) (l : List Char) :
    (l.dropWhile p).length ≤ l.length := by
  induction l with
  | nil => simp [List.dropWhile]
  | cons c cs ih =>
    rw [List.dropWhile_cons]
    by_cases h : p c
    · simp only [h, if_true]
      exact le_trans ih (by simp)
    · simp [h]

/-- `args.status.toLowerCase().replace(/\s+/g, '_')`. -/
def collapseWsToUnderscore : List Char → List Char
  | [] => []
  | c :: rest =>
    if c.isWhitespace then
      '_' :: collapseWsToUnderscore (rest.dropWhile Char.isWhitespace)
    else c :: collapseWsToUnderscore rest
  termination_by l => l.length
  decreasing_by
  · simp only [List.length_cons]
    exact Nat.lt_succ_of_le (length_dropWhile_le_chars _ _)
  · simp

def statusKey (s : String) : String :=
  String.mk (collapseWsToUnderscore (strToLower s).toList)

/-- The status-normalisation ladder used by `executeCreateTask` and
`executeUpdateTask` (unknown values keep the supplied default). -/
def normalizeStatus (s : String) (dflt : TaskStatus) : TaskStatus :=
  let k := statusKey s
  if k = "todo" || k = "to_do" then TaskStatus.todo
  else if k = "in_progress" || k = "inprogress" then TaskStatus.in_progress
  else if k = "done" || k = "completed" then TaskStatus.done
  else dflt

/-- Result of one executor: the thrown error message or the affected entity
id, together with the effect trace. -/
def ExecResult := Except String String × List Effect

def execThrow (msg : String) : ExecResult := (Except.error msg, [])

/-- `executeCreateTask`. -/
def executeCreateTask (env : ExecEnv) (args : List (String × String)) : ExecResult :=
  if !argTruthy args "title" then
    execThrow "Failed to create task: Please provide a title for the task."
  else
    let resolved : Except String (Option String) :=
      if argTruthy args "assignedTo" then
        let v := (argGet args "assignedTo").getD ""
        match env.resolveUser v with
        | some uid => Except.ok (some uid)
        | none => Except.error ("Failed to create task: User \"" ++ v ++
            "\" not found. Please make sure the user exists in the system.")
      else Except.ok none
    match resolved with
    | Except.error e => (Except.error e, [])
    | Except.ok assignee =>
      let status := match argGet args "status" with
        | some s => if !s.isEmpty then normalizeStatus s TaskStatus.todo else TaskStatus.todo
        | none => TaskStatus.todo
      (Except.ok env.newTaskId,
        [Effect.createTask ((argGet args "title").getD "")
            ((argGet args "description").getD "") status assignee (argGet args "deadline"),
         Effect.indexTask env.newTaskId])

/-- `executeUpdateTask`. -/
def executeUpdateTask (env : ExecEnv) (args : List (String × String)) : ExecResult :=
  if !argTruthy args "taskId" then
    execThrow "Failed to update task: Please provide the task title or ID to update."
  else
    match env.resolveTask ((argGet args "taskId").getD "") with
    | none => execThrow ("Failed to update task: Task \"" ++
        ((argGet args "taskId").getD "") ++
        "\" not found. Please make sure the task exists.")
    | some tid =>
      let p1 := if argTruthy args "title" then
          [("title", (argGet args "title").getD "")] else []
      let p2 := p1 ++ (if argTruthy args "description" then
          [("description", (argGet args "description").getD "")] else [])
      let resolved : Except String (List (String × String)) :=
        if argTruthy args "assignedTo" then
          let v := (argGet args "assignedTo").getD ""
          match env.resolveUser v with
          | some uid => Except.ok (p2 ++ [("assignedTo", uid)])
          | none => Except.error ("Failed to update task: User \"" ++ v ++
              "\" not found. Please make sure the user exists in the system.")
        else Except.ok p2
      match resolved with
      | Except.error e => (Except.error e, [])
      | Except.ok p3 =>
        let p4 := p3 ++ (if argTruthy args "deadline" then
            [("deadline", (argGet args "deadline").getD "")] else [])
        let p5 := p4 ++ (if argTruthy args "status" then
            [("status", (normalizeStatus ((argGet args "status").getD "")
              TaskStatus.todo).toStr)] else [])
        (Except.ok tid, [Effect.updateTask tid p5, Effect.reindexEntity "task" tid])

/-- `executeDeleteTask`. -/
def executeDeleteTask (env : ExecEnv) (args : List (String × String)) : ExecResult :=
  if !argTruthy args "taskId" then
    execThrow "Failed to delete task: Please provide the task title or ID to delete."
  else
    match env.resolveTask ((argGet args "taskId").getD "") with
    | none => execThrow ("Failed to delete task: Task \"" ++
        ((argGet args "taskId").getD "") ++
        "\" not found. Please make sure the task exists.")
    | some tid =>
      (Except.ok tid, [Effect.removeTask tid, Effect.deleteFromIndex "task" tid])

/-- `executeCreateUser`. -/
def executeCreateUser (env : ExecEnv) (args : List (String × String)) : ExecResult :=
  if !argTruthy args "name" then
    execThrow "Failed to create user: Please provide a name for the user."
  else if !argTruthy args "email" then
    execThrow "Failed to create user: Please provide an email address for the user."
  else if !argTruthy args "password" then
    execThrow ("Failed to create user: Please provide a password for the user. " ++
      "Passwords must be at least 6 characters.")
  else
    let resolved : Except String (Option String) :=
      if argTruthy args "teamId" then
        let v := (argGet args "teamId").getD ""
        match env.resolveTeam v with
        | some tid => Except.ok (some tid)
        | none => Except.error ("Failed to create user: Team \"" ++ v ++
            "\" not found. Please make sure the team exists.")
      else Except.ok none
    match resolved with
    | Except.error e => (Except.error e, [])
    | Except.ok teamId =>
      (Except.ok env.newUserId,
        [Effect.createUser ((argGet args "name").getD "") ((argGet args "email").getD "")
            ((argGet args "password").getD "") (argGet args "role") teamId,
         Effect.indexUser env.newUserId])

/-- `executeUpdateUser`. -/
def executeUpdateUser (env : ExecEnv) (args : List (String × String)) : ExecResult :=
  if !argTruthy args "userId" then
    execThrow "Failed to update user: Please provide the user name or ID to update."
  else
    match env.resolveUser ((argGet args "userId").getD "") with
    | none => execThrow ("Failed to update user: User \"" ++
        ((argGet args "userId").getD "") ++
        "\" not found. Please make sure the user exists.")
    | some uid =>
      let p1 := (if argTruthy args "name" then [("name", (argGet args "name").getD "")] else []) ++
        (if argTruthy args "email" then [("email", (argGet args "email").getD "")] else []) ++
        (if argTruthy args "password" then [("password", (argGet args "password").getD "")] else []) ++
        (if argTruthy args "role" then [("role", (argGet args "role").getD "")] else [])
      let resolved : Except String (List (String × String)) :=
        if argTruthy args "teamId" then
          let v := (argGet args "teamId").getD ""
          match env.resolveTeam v with
          | some tid => Except.ok (p1 ++ [("teamId", tid)])
          | none => Except.error ("Failed to update user: Team \"" ++ v ++
              "\" not found. Please make sure the team exists.")
        else Except.ok p1
      match resolved with
      | Except.error e => (Except.error e, [])
      | Except.ok p2 =>
        (Except.ok uid, [Effect.updateUser uid p2, Effect.reindexEntity "user" uid])

/-- `executeDeleteUser`. -/
def executeDeleteUser (env : ExecEnv) (args : List (String × String)) : ExecResult :=
  if !argTruthy args "userId" then
    execThrow "Failed to delete user: Please provide the user name or ID to delete."
  else
    match env.resolveUser ((argGet args "userId").getD "") with
    | none => execThrow ("Failed to delete user: User \"" ++
        ((argGet args "userId").getD "") ++
        "\" not found. Please make sure the user exists.")
    | some uid =>
      (Except.ok uid, [Effect.removeUser uid, Effect.deleteFromIndex "user" uid])

/-- `executeCreateTeam`. -/
def executeCreateTeam (env : ExecEnv) (args : List (String × String)) : ExecResult :=
  if !argTruthy args "name" then
    execThrow "Failed to create team: Please provide a name for the team."
  else if !argTruthy args "projectId" then
    execThrow "Failed to create team: Please specify which project this team belongs to."
  else if !argTruthy args "ownerId" then
    execThrow "Failed to create team: Please specify who should be the team owner."
  else
    match env.resolveProject ((argGet args "projectId").getD "") with
    | none => execThrow ("Failed to create team: Project \"" ++
        ((argGet args "projectId").getD "") ++
        "\" not found. Please make sure the project exists.")
    | some pid =>
      match env.resolveUser ((argGet args "ownerId").getD "") with
      | none => execThrow ("Failed to create team: User \"" ++
          ((argGet args "ownerId").getD "") ++
          "\" not found. Please make sure the user exists.")
      | some oid =>
        (Except.ok env.newTeamId,
          [Effect.createTeam ((argGet args "name").getD "") pid oid,
           Effect.indexTeam env.newTeamId])

/-- `executeUpdateTeam`. -/
def executeUpdateTeam (env : ExecEnv) (args : List (String × String)) : ExecResult :=
  if !argTruthy args "teamId" then
    execThrow "Failed to update team: Please provide the team name or ID to update."
  else
    match env.resolveTeam ((argGet args "teamId").getD "") with
    | none => execThrow ("Failed to update team: Team \"" ++
        ((argGet args "teamId").getD "") ++
        "\" not found. Please make sure the team exists.")
    | some tid =>
      let p1 := if argTruthy args "name" then [("name", (argGet args "name").getD "")] else []
      let resolvedP : Except String (List (String × String)) :=
        if argTruthy args "projectId" then
          let v := (argGet args "projectId").getD ""
          match env.resolveProject v with
          | some pid => Except.ok (p1 ++ [("projectId", pid)])
          | none => Except.error ("Failed to update team: Project \"" ++ v ++
              "\" not found. Please make sure the project exists.")
        else Except.ok p1
      match resolvedP with
      | Except.error e => (Except.error e, [])
      | Except.ok p2 =>
        let resolvedO : Except String (List (String × String)) :=
          if argTruthy args "ownerId" then
            let v := (argGet args "ownerId").getD ""
            match env.resolveUser v with
            | some oid => Except.ok (p2 ++ [("ownerId", oid)])
            | none => Except.error ("Failed to update team: User \"" ++ v ++
                "\" not found. Please make sure the user exists.")
          else Except.ok p2
        match resolvedO with
        | Except.error e => (Except.error e, [])
        | Except.ok p3 =>
          (Except.ok tid, [Effect.updateTeam tid p3, Effect.reindexEntity "team" tid])

/-- `executeDeleteTeam`. -/
def executeDeleteTeam (env : ExecEnv) (args : List (String × String)) : ExecResult :=
  if !argTruthy args "teamId" then
    execThrow "Failed to delete team: Please provide the team name or ID to delete."
  else
    match env.resolveTeam ((argGet args "teamId").getD "") with
    | none => execThrow ("Failed to delete team: Team \"" ++
        ((argGet args "teamId").getD "") ++
        "\" not found. Please make sure the team exists in the system.")
    | some tid =>
      (Except.ok tid, [Effect.removeTeam tid, Effect.deleteFromIndex "team" tid])

/-- `executeCreateProject`. -/
def executeCreateProject (env : ExecEnv) (args : List (String × String)) : ExecResult :=
  if !argTruthy args "name" then
    execThrow "Failed to create project: Please provide a name for the project."
  else
    (Except.ok env.newProjectId,
      [Effect.createProject ((argGet args "name").getD "")
          ((argGet args "description").getD ""),
       Effect.indexProject env.newProjectId])

/-- `executeUpdateProject`. -/
def executeUpdateProject (env : ExecEnv) (args : List (String × String)) : ExecResult :=
  if !argTruthy args "projectId" then
    execThrow "Failed to update project: Please provide the project name or ID to update."
  else
    match env.resolveProject ((argGet args "projectId").getD "") with
    | none => execThrow ("Failed to update project: Project \"" ++
        ((argGet args "projectId").getD "") ++
        "\" not found. Please make sure the project exists.")
    | some pid =>
      let p1 := (if argTruthy args "name" then [("name", (argGet args "name").getD "")] else []) ++
        (if argTruthy args "description" then
          [("description", (argGet args "description").getD "")] else [])
      (Except.ok pid, [Effect.updateProject pid p1, Effect.reindexEntity "project" pid])

/-- `executeDeleteProject`. -/
def executeDeleteProject (env : ExecEnv) (args : List (String × String)) : ExecResult :=
  if !argTruthy args "projectId" then
    execThrow "Failed to delete project: Please provide the project name or ID to delete."
  else
    match env.resolveProject ((argGet args "projectId").getD "") with
    | none => execThrow ("Failed to delete project: Project \"" ++
        ((argGet args "projectId").getD "") ++
        "\" not found. Please make sure the project exists.")
    | some pid =>
      (Except.ok pid, [Effect.removeProject pid, Effect.deleteFromIndex "project" pid])

/-- The executor selected by the dispatch switch of `executeAction` (unknown names
perform nothing). -/
def dispatchAction (env : ExecEnv) (fc : FunctionCall) : ExecResult :=
  if fc.name = "create_task" then executeCreateTask env fc.arguments
  else if fc.name = "update_task" then executeUpdateTask env fc.arguments
  else if fc.name = "delete_task" then executeDeleteTask env fc.arguments
  else if fc.name = "create_user" then executeCreateUser env fc.arguments
  else if fc.name = "update_user" then executeUpdateUser env fc.arguments
  else if fc.name = "delete_user" then executeDeleteUser env fc.arguments
  else if fc.name = "create_team" then executeCreateTeam env fc.arguments
  else if fc.name = "update_team" then executeUpdateTeam env fc.arguments
  else if fc.name = "delete_team" then executeDeleteTeam env fc.arguments
  else if fc.name = "create_project" then executeCreateProject env fc.arguments
  else if fc.name = "update_project" then executeUpdateProject env fc.arguments
  else if fc.name = "delete_project" then executeDeleteProject env fc.arguments
  else (Except.error ("Unknown function: " ++ fc.name), [])

/-- The executor's answer to the user plus the effect trace, as produced by
the inner try/catch of `executeAction`.  `llmFormat` is the external
`generationService.formatErrorMessage` call; on an execution error the answer
carries the formatted message plus the verbatim `[Extracted so far: …]`
suffix. -/
def executeAction (env : ExecEnv) (llmFormat : String → String → String)
    (query : String) (fc : FunctionCall) (successAnswer : String) :
    String × List Effect :=
  match dispatchAction env fc with
  | (Except.ok _, effects) => (successAnswer, effects)
  | (Except.error msg, effects) =>
    (llmFormat msg query ++ "\n\n[Extracted so far: " ++
      String.intercalate ", "
        (fc.arguments.map (fun kv => kv.1 ++ "=\"" ++ kv.2 ++ "\"")) ++ "]",
     effects)

/-- A required argument (as validated by the executors themselves) is absent
or blank in the extracted function call. -/
def requiredArgsMissing (fc : FunctionCall) : Bool :=
  if fc.name = "create_task" then !argTruthy fc.arguments "title"
  else if fc.name = "update_task" then !argTruthy fc.arguments "taskId"
  else if fc.name = "delete_task" then !argTruthy fc.arguments "taskId"
  else if fc.name = "create_user" then !argTruthy fc.arguments "name" ||
    !argTruthy fc.arguments "email" || !argTruthy fc.arguments "password"
  else if fc.name = "update_user" then !argTruthy fc.arguments "userId"
  else if fc.name = "delete_user" then !argTruthy fc.arguments "userId"
  else if fc.name = "create_team" then !argTruthy fc.arguments "name" ||
    !argTruthy fc.arguments "projectId" || !argTruthy fc.arguments "ownerId"
  else if fc.name = "update_team" then !argTruthy fc.arguments "teamId"
  else if fc.name = "delete_team" then !argTruthy fc.arguments "teamId"
  else if fc.name = "create_project" then !argTruthy fc.arguments "name"
  else if fc.name = "update_project" then !argTruthy fc.arguments "projectId"
  else if fc.name = "delete_project" then !argTruthy fc.arguments "projectId"
  else false

/-- An executor outcome that raised an error and performed no effect. -/
def isErrorWithNoEffects : ExecResult → Bool
  | (Except.error _, effects) => effects.isEmpty
  | (Except.ok _, _) => false

theorem executeAction_effects (env : ExecEnv) (llmFormat : String → String → String)
    (query successAnswer : String) (fc : FunctionCall) :
    (executeAction env llmFormat query fc successAnswer).2 = (dispatchAction env fc).2 := by
  unfold executeAction
  rcases hd : dispatchAction env fc with ⟨r, effects⟩
  cases r <;> simp

theorem effects_nil_of_blocked (r : ExecResult) (h : isErrorWithNoEffects r = true) :
    r.2 = [] := by
  rcases r with ⟨e, eff⟩
  cases e with
  | error m =>
    unfold isErrorWithNoEffects at h
    exact List.isEmpty_iff.mp h
  | ok v => exact absurd h (by simp [isErrorWithNoEffects])

set_option maxHeartbeats 1600000 in
/-- Claim C5: whenever the extracted function call lacks a required argument,
the executor throws a validation error before any service call, so the
dispatch produces an error with an empty effect trace — no CRUD dispatch and
no vector-index write reaches the stores.  For the two examples of the claim the
thrown message is the fixed string naming the missing field (`title` for
`create_task`, the task title or ID for `update_task`). -/
theorem missing_required_argument_blocks_writes (env : ExecEnv)
    (llmFormat : String → String → String) (query successAnswer : String)
    (fc : FunctionCall) (h : requiredArgsMissing fc = true) :
    isErrorWithNoEffects (dispatchAction env fc) = true ∧
    (executeAction env llmFormat query fc successAnswer).2 = [] ∧
    executeCreateTask env [] =
      (Except.error "Failed to create task: Please provide a title for the task.", []) ∧
    executeUpdateTask env [] =
      (Except.error "Failed to update task: Please provide the task title or ID to update.",
        []) := by
  have main : isErrorWithNoEffects (dispatchAction env fc) = true := by
    unfold requiredArgsMissing at h
    unfold dispatchAction
    by_cases h1 : fc.name = "create_task"
    · rw [if_pos h1] at h ⊢
      unfold executeCreateTask
      rw [if_pos h]
      rfl
    · rw [if_neg h1] at h ⊢
      by_cases h2 : fc.name = "update_task"
      · rw [if_pos h2] at h ⊢
        unfold executeUpdateTask
        rw [if_pos h]
        rfl
      · rw [if_neg h2] at h ⊢
        by_cases h3 : fc.name = "delete_task"
        · rw [if_pos h3] at h ⊢
          unfold executeDeleteTask
          rw [if_pos h]
          rfl
        · rw [if_neg h3] at h ⊢
          by_cases h4 : fc.name = "create_user"
          · rw [if_pos h4] at h ⊢
            unfold executeCreateUser
            by_cases ha : (!argTruthy fc.arguments "name") = true
            · rw [if_pos ha]
              rfl
            · rw [if_neg ha]
              by_cases hb : (!argTruthy fc.arguments "email") = true
              · rw [if_pos hb]
                rfl
              · rw [if_neg hb]
                have hp : (!argTruthy fc.arguments "password") = true := by
                  rcases Bool.or_eq_true_iff.mp h with hor | hc
                  · rcases Bool.or_eq_true_iff.mp hor with hx | hx
                    · exact absurd hx ha
                    · exact absurd hx hb
                  · exact hc
                rw [if_pos hp]
                rfl
          · rw [if_neg h4] at h ⊢
            by_cases h5 : fc.name = "update_user"
            · rw [if_pos h5] at h ⊢
              unfold executeUpdateUser
              rw [if_pos h]
              rfl
            · rw [if_neg h5] at h ⊢
              by_cases h6 : fc.name = "delete_user"
              · rw [if_pos h6] at h ⊢
                unfold executeDeleteUser
                rw [if_pos h]
                rfl
              · rw [if_neg h6] at h ⊢
                by_cases h7 : fc.name = "create_team"
                · rw [if_pos h7] at h ⊢
                  unfold executeCreateTeam
                  by_cases ha : (!argTruthy fc.arguments "name") = true
                  · rw [if_pos ha]
                    rfl
                  · rw [if_neg ha]
                    by_cases hb : (!argTruthy fc.arguments "projectId") = true
                    · rw [if_pos hb]
                      rfl
                    · rw [if_neg hb]
                      have hp : (!argTruthy fc.arguments "ownerId") = true := by
                        rcases Bool.or_eq_true_iff.mp h with hor | hc
                        · rcases Bool.or_eq_true_iff.mp hor with hx | hx
                          · exact absurd hx ha
                          · exact absurd hx hb
                        · exact hc
                      rw [if_pos hp]
                      rfl
                · rw [if_neg h7] at h ⊢
                  by_cases h8 : fc.name = "update_team"
                  · rw [if_pos h8] at h ⊢
                    unfold executeUpdateTeam
                    rw [if_pos h]
                    rfl
                  · rw [if_neg h8] at h ⊢
                    by_cases h9 : fc.name = "delete_team"
                    · rw [if_pos h9] at h ⊢
                      unfold executeDeleteTeam
                      rw [if_pos h]
                      rfl
                    · rw [if_neg h9] at h ⊢
                      by_cases h10 : fc.name = "create_project"
                      · rw [if_pos h10] at h ⊢
                        unfold executeCreateProject
                        rw [if_pos h]
                        rfl
                      · rw [if_neg h10] at h ⊢
                        by_cases h11 : fc.name = "update_project"
                        · rw [if_pos h11] at h ⊢
                          unfold executeUpdateProject
                          rw [if_pos h]
                          rfl
                        · rw [if_neg h11] at h ⊢
                          by_cases h12 : fc.name = "delete_project"
                          · rw [if_pos h12] at h ⊢
                            unfold executeDeleteProject
                            rw [if_pos h]
                            rfl
                          · rw [if_neg h12] at h ⊢
                            exact absurd h (by simp)
  refine ⟨main, ?_, rfl, rfl⟩
  rw [executeAction_effects]
  exact effects_nil_of_blocked _ main

/-- Concrete instantiation of claim C5: `create_task` with no arguments at
all is rejected with no effects. -/
theorem missing_required_argument_blocks_writes_witness :
    isErrorWithNoEffects (dispatchAction
      { resolveUser := fun _ => none, resolveTeam := fun _ => none,
        resolveProject := fun _ => none, resolveTask := fun _ => none }
      { name := "create_task", arguments := [] }) = true ∧
    (executeAction
      { resolveUser := fun _ => none, resolveTeam := fun _ => none,
        resolveProject := fun _ => none, resolveTask := fun _ => none }
      (fun m _ => m) "create a task"
      { name := "create_task", arguments := [] } "ok").2 = [] ∧
    executeCreateTask
      { resolveUser := fun _ => none, resolveTeam := fun _ => none,
        resolveProject := fun _ => none, resolveTask := fun _ => none } [] =
      (Except.error "Failed to create task: Please provide a title for the task.", []) ∧
    executeUpdateTask
      { resolveUser := fun _ => none, resolveTeam := fun _ => none,
        resolveProject := fun _ => none, resolveTask := fun _ => none } [] =
      (Except.error "Failed to update task: Please provide the task title or ID to update.",
        []) :=
  missing_required_argument_blocks_writes _ (fun m _ => m) "create a task" "ok"
    { name := "create_task", arguments := [] } (by decide)

/-! ## Claim C4: sanitisation is never applied by the transformers -/

/-- Fixed formatting environment for concrete transformer runs. -/
def demoEnv : TransformEnv :=
  { now := 0, fmtDate := fun _ => "January 1, 2025",
    isoDate := fun _ => "1970-01-01T00:00:00.000Z" }

/-- A task whose description carries a credential pair. -/
def leakedTask : TaskSnapshot :=
  { id := "K9", title := "Rotate credentials",
    description := some "password: hunter2", status := TaskStatus.todo,
    assignedTo := none, assignee := none, deadline := none,
    createdAt := 0, updatedAt := 0 }

/-- Claim C4 (code bug): `sanitizeText` exists on the transformer service but
is never invoked by `transformTask` (nor any other transform), so a
`password: value` pair in a task description reaches the indexed text — and
hence the vector-store payload — verbatim, and no `[REDACTED]` marker is ever
produced. -/
theorem transformer_leaks_secret_pairs :
    strContains (transformTask demoEnv leakedTask).text "password: hunter2" = true ∧
    strContains (transformTask demoEnv leakedTask).text "[REDACTED]" = false ∧
    strContains (taskPayload demoEnv leakedTask).text "password: hunter2" = true := by
  refine ⟨by decide, by decide, by decide⟩

/-! ## Response cache (rag.service.ts, `processQuery` / `generateCacheKey`) -/

/-- JS 32-bit signed integer coercion (`hash & hash` / `<<`). -/
def toInt32 (n : Int) : Int := ((n + 2 ^ 31) % 2 ^ 32) - 2 ^ 31

/-- One step of the cache-key hash:
`hash = (hash << 5) - hash + char; hash = hash & hash`. -/
def jsHashStep (h : Int) (c : ℕ) : Int := toInt32 (toInt32 (h * 32) - h + c)

def isWsChar (c : Char) : Bool := c.isWhitespace

/-- Leading/trailing whitespace removal (JS `trim`). -/
def trimChars (cs : List Char) : List Char :=
  ((cs.dropWhile isWsChar).reverse.dropWhile isWsChar).reverse

/-- `replace(/\s+/g, ' ')`: collapse each whitespace run to a single space. -/
def collapseWsToSpace : List Char → List Char
  | [] => []
  | c :: rest =>
    if c.isWhitespace then
      ' ' :: collapseWsToSpace (rest.dropWhile Char.isWhitespace)
    else c :: collapseWsToSpace rest
  termination_by l => l.length
  decreasing_by
  · simp only [List.length_cons]
    exact Nat.lt_succ_of_le (length_dropWhile_le_chars _ _)
  · simp

/-- `query.toLowerCase().trim().replace(/\s+/g, ' ')`. -/
def normalizeQuery (q : String) : String :=
  String.mk (collapseWsToSpace (trimChars (strToLower q).toList))

/-- `generateCacheKey`: the key depends on the normalized query only — the
session id is not an input.  (`charCodeAt` and `Char.toNat` agree on the
basic multilingual plane.) -/
def generateCacheKey (q : String) : String :=
  let normalized := normalizeQuery q
  let hash := normalized.toList.foldl (fun h c => jsHashStep h c.toNat) 0
  "query_" ++ toString hash.natAbs

/-- One cited source of a response. -/
structure SourceCitation where
  entityType : String
  entityId : String
  text : String
  score : ℚ
  citation : String
  deriving Repr, DecidableEq

/-- The chat response, metadata fields inlined. -/
structure ChatResponse where
  answer : String
  sources : List SourceCitation
  confidence : ℚ
  sessionId : String
  processingTime : Int
  stepsExecuted : List String
  retrievedDocuments : ℕ
  queryClassification : String
  fromCache : Bool
  deriving Repr, DecidableEq

/-- The response-cache layer of `processQuery`.  `pipeline` is the rest of
the pipeline (stages 1–5), which only runs on a miss; the orchestrator then
stamps `sessionId`, `fromCache := false` and the elapsed time onto the
response it builds and caches the full response object under
`generateCacheKey(query)`.  On a hit the cached response is returned with the
caller-supplied (or freshly generated) session id, `fromCache := true` and a
recomputed `processingTime`. -/
def processQueryCacheLayer (cache : List (String × ChatResponse)) (query : String)
    (sessionIdReq : Option String) (freshId : String) (elapsed : Int)
    (pipeline : ChatResponse) : ChatResponse × List (String × ChatResponse) :=
  let sessionId := sessionIdReq.getD freshId
  let cacheKey := generateCacheKey query
  match cache.lookup cacheKey with
  | some cachedResult =>
    ({ cachedResult with
        sessionId := sessionId, fromCache := true,
        processingTime := elapsed }, cache)
  | none =>
    let response :=
      { pipeline with
        sessionId := sessionId, fromCache := false,
        processingTime := elapsed }
    (response, (cacheKey, response) :: cache)

/-- Claim C3: the cache key is derived from the normalized query only (no
session id input), and when `Process(q, s1)` fills the cache and
`Process(q, s2)` hits the still-fresh entry, the second response carries the
caller-supplied session id s2 (or the freshly generated id when none is
supplied), `fromCache = true`, a recomputed processing time, and the answer
and sources of the first response. -/
theorem response_cache_session_swap (cache : List (String × ChatResponse))
    (q s1 s2 fresh1 fresh2 : String) (t1 t2 : Int) (pipe pipe2 : ChatResponse)
    (hmiss : cache.lookup (generateCacheKey q) = none) :
    (∀ q1 q2 : String, normalizeQuery q1 = normalizeQuery q2 →
      generateCacheKey q1 = generateCacheKey q2) ∧
    ((processQueryCacheLayer
        (processQueryCacheLayer cache q (some s1) fresh1 t1 pipe).2
        q (some s2) fresh2 t2 pipe2).1.sessionId = s2 ∧
     (processQueryCacheLayer
        (processQueryCacheLayer cache q (some s1) fresh1 t1 pipe).2
        q none fresh2 t2 pipe2).1.sessionId = fresh2 ∧
     (processQueryCacheLayer
        (processQueryCacheLayer cache q (some s1) fresh1 t1 pipe).2
        q (some s2) fresh2 t2 pipe2).1.fromCache = true ∧
     (processQueryCacheLayer
        (processQueryCacheLayer cache q (some s1) fresh1 t1 pipe).2
        q (some s2) fresh2 t2 pipe2).1.processingTime = t2 ∧
     (processQueryCacheLayer
        (processQueryCacheLayer cache q (some s1) fresh1 t1 pipe).2
        q (some s2) fresh2 t2 pipe2).1.answer =
       (processQueryCacheLayer cache q (some s1) fresh1 t1 pipe).1.answer ∧
     (processQueryCacheLayer
        (processQueryCacheLayer cache q (some s1) fresh1 t1 pipe).2
        q (some s2) fresh2 t2 pipe2).1.sources =
       (processQueryCacheLayer cache q (some s1) fresh1 t1 pipe).1.sources) := by
  constructor
  · intro q1 q2 hq
    unfold generateCacheKey
    rw [hq]
  · have hfirst : processQueryCacheLayer cache q (some s1) fresh1 t1 pipe =
        ({ pipe with sessionId := s1, fromCache := false, processingTime := t1 },
         (generateCacheKey q,
          { pipe with sessionId := s1, fromCache := false, processingTime := t1 }) ::
           cache) := by
      simp only [processQueryCacheLayer, hmiss, Option.getD]
    have hlook : ((generateCacheKey q,
        { pipe with sessionId := s1, fromCache := false, processingTime := t1 }) ::
          cache).lookup (generateCacheKey q) =
        some { pipe with sessionId := s1, fromCache := false, processingTime := t1 } := by
      simp [List.lookup]
    refine ⟨?_, ?_, ?_, ?_, ?_, ?_⟩ <;>
      rw [hfirst] <;>
      simp only [processQueryCacheLayer, hlook, Option.getD]

/-- Pipeline result used by the C3 witness. -/
def cacheDemoPipe : ChatResponse :=
  { answer := "Task K1 is overdue", sources := [], confidence := 1,
    sessionId := "tmp", processingTime := 0, stepsExecuted := ["hybrid_search"],
    retrievedDocuments := 1, queryClassification := "list", fromCache := false }

/-- Concrete instantiation of the cache-miss hypothesis of claim C3: on an empty
cache, the second call for the same query returns the cached answer under
session id sessB with `fromCache = true`. -/
theorem response_cache_session_swap_witness :
    (processQueryCacheLayer
      (processQueryCacheLayer [] "Show overdue tasks" (some "sessA") "fresh1" 5
        cacheDemoPipe).2
      "Show overdue tasks" (some "sessB") "fresh2" 7 cacheDemoPipe).1.sessionId =
      "sessB" ∧
    (processQueryCacheLayer
      (processQueryCacheLayer [] "Show overdue tasks" (some "sessA") "fresh1" 5
        cacheDemoPipe).2
      "Show overdue tasks" (some "sessB") "fresh2" 7 cacheDemoPipe).1.fromCache =
      true ∧
    (processQueryCacheLayer
      (processQueryCacheLayer [] "Show overdue tasks" (some "sessA") "fresh1" 5
        cacheDemoPipe).2
      "Show overdue tasks" (some "sessB") "fresh2" 7 cacheDemoPipe).1.answer =
      (processQueryCacheLayer [] "Show overdue tasks" (some "sessA") "fresh1" 5
        cacheDemoPipe).1.answer := by
  have h := response_cache_session_swap [] "Show overdue tasks" "sessA" "sessB"
    "fresh1" "fresh2" 5 7 cacheDemoPipe cacheDemoPipe rfl
  exact ⟨h.2.1, h.2.2.2.1, h.2.2.2.2.2.1⟩

end TaskManager
